import Mathlib

/-!
# Two-paddle ball game (`project/game.c`): shallow embedding

The C program keeps its state in globals (layers, moving layers, score, pause
flag, fences).  Here that state is an explicit record and every C function is
a pure function on the parts of the state it reads and writes.

Conventions
* `Vec2.x` is `axes[0]`, `Vec2.y` is `axes[1]`.
* Coordinates, velocities and the counters `wait`, `delay`, `count`,
  `redrawScreen` are C `int`/`short`; signed overflow is undefined in C, so
  they are unbounded integers here.
* `score` is `char[2]`: unsigned 8-bit cells, `++` is `+ 1` modulo `2^8`.
* The moving-layer chain is `ml0 → ml1 → ml2 → 0` and the layer chain is
  `ballLayer → paddle2 → fieldLayer → paddle1 → 0`; the `next` pointers are
  never written, so a chain is a `List` and each `MovLayer` carries the layer
  it points to.
-/

namespace Game

/-! ## Geometry (`shape.h`) -/

/-- Modelled from the spec: `Vec2` of `shape.h`, an integer pair (x, y) used
for positions and velocities. -/
structure Vec2 where
  x : Int
  y : Int
deriving DecidableEq, Repr

/-- Read `v.axes[axis]`. -/
def Vec2.axes (v : Vec2) (axis : Nat) : Int :=
  if axis = 0 then v.x else v.y

/-- Write `v.axes[axis] = a`. -/
def Vec2.setAxis (v : Vec2) (axis : Nat) (a : Int) : Vec2 :=
  if axis = 0 then { v with x := a } else { v with y := a }

/-- Modelled from the spec: `Region` of `shape.h`, an axis-aligned box given
by its `topLeft` and `botRight` corners. -/
structure Region where
  topLeft : Vec2
  botRight : Vec2
deriving DecidableEq, Repr

/-- Modelled from the spec: `vec2Add` of `shape.h`, component-wise sum
(candidate position = `posNext` + velocity). -/
def vec2Add (a b : Vec2) : Vec2 :=
  ⟨a.x + b.x, a.y + b.y⟩

/-- Modelled from the spec: `AbShape` of `shape.h`, a shape seen through its
two capabilities `getBounds(center)` and `check(center, pixel)`. -/
structure AbShape where
  getBounds : Vec2 → Region
  check : Vec2 → Vec2 → Bool

/-- Call through the shape's `getBounds` pointer. -/
def abShapeGetBounds (s : AbShape) (centerPos : Vec2) : Region :=
  s.getBounds centerPos

/-- Call through the shape's `check` pointer. -/
def abShapeCheck (s : AbShape) (centerPos pixel : Vec2) : Bool :=
  s.check centerPos pixel

/-- Modelled from the spec: `abRectGetBounds` of `shape.h`, the box
center ± (halfWidth, halfHeight). -/
def abRectGetBounds (halfSize centerPos : Vec2) : Region :=
  ⟨⟨centerPos.x - halfSize.x, centerPos.y - halfSize.y⟩,
   ⟨centerPos.x + halfSize.x, centerPos.y + halfSize.y⟩⟩

/-- Modelled from the spec: `abRectCheck` of `shape.h`, true iff the pixel lies
within the box. -/
def abRectCheck (halfSize centerPos pixel : Vec2) : Bool :=
  let b := abRectGetBounds halfSize centerPos
  decide (b.topLeft.x ≤ pixel.x ∧ pixel.x ≤ b.botRight.x ∧
          b.topLeft.y ≤ pixel.y ∧ pixel.y ≤ b.botRight.y)

/-- Modelled from the spec: `abRectOutlineGetBounds` of `shape.h`, the same box
as the filled rectangle. -/
def abRectOutlineGetBounds (halfSize centerPos : Vec2) : Region :=
  abRectGetBounds halfSize centerPos

/-- Modelled from the spec: `abRectOutlineCheck` of `shape.h`, true iff the
pixel lies within the box but not within the sub-box inset by the band
thickness `band`. -/
def abRectOutlineCheck (band : Int) (halfSize centerPos pixel : Vec2) : Bool :=
  abRectCheck halfSize centerPos pixel &&
    !abRectCheck ⟨halfSize.x - band, halfSize.y - band⟩ centerPos pixel

/-- Modelled from the spec: `abCircleGetBounds` of `abCircle.h`, the box
center ± radius on both axes. -/
def abCircleGetBounds (radius : Int) (centerPos : Vec2) : Region :=
  ⟨⟨centerPos.x - radius, centerPos.y - radius⟩,
   ⟨centerPos.x + radius, centerPos.y + radius⟩⟩

/-- Modelled from the spec: `abCircleCheck` of `abCircle.h`, true iff the
squared distance from the center is at most radius². -/
def abCircleCheck (radius : Int) (centerPos pixel : Vec2) : Bool :=
  decide ((pixel.x - centerPos.x) * (pixel.x - centerPos.x) +
          (pixel.y - centerPos.y) * (pixel.y - centerPos.y) ≤ radius * radius)

/-- Modelled from the spec: `screenWidth` of `lcdutils.h`. -/
def screenWidth : Int := 128

/-- Modelled from the spec: `screenHeight` of `lcdutils.h`. -/
def screenHeight : Int := 160

/-! ## Layers and moving layers -/

/-- Modelled from the spec: `Layer` of `shape.h` (shape, committed `pos`,
previous `posLast`, pending `posNext`, colour); the `next` pointer is the list
order of `GameState.layers`. -/
structure Layer where
  abShape : AbShape
  pos : Vec2
  posLast : Vec2
  posNext : Vec2
  color : Nat

/-- Modelled from the spec: `layerGetBounds` of `shape.h`, the bounds of the
layer's shape at its committed position `pos`. -/
def layerGetBounds (l : Layer) : Region :=
  abShapeGetBounds l.abShape l.pos

/-- The source's `MovLayer`: a layer reference and a velocity; `next` is list order. -/
structure MovLayer where
  layer : Layer
  velocity : Vec2

/-! ## The shapes and layers of the game -/

/-- Source: `AbRect rect10 = {abRectGetBounds, abRectCheck, {15,5}}`. -/
def rect10 : AbShape :=
  ⟨abRectGetBounds ⟨15, 5⟩, abRectCheck ⟨15, 5⟩⟩

/-- Source: `AbRectOutline fieldOutline`, half size
`{screenWidth/2 - 10, screenHeight/2 - 10}`; the band is one pixel. -/
def fieldOutline : AbShape :=
  ⟨abRectOutlineGetBounds ⟨screenWidth / 2 - 10, screenHeight / 2 - 10⟩,
   abRectOutlineCheck 1 ⟨screenWidth / 2 - 10, screenHeight / 2 - 10⟩⟩

/-- Modelled from the spec: `circle4` of `abCircle.h`, the circle of radius 4. -/
def circle4 : AbShape :=
  ⟨abCircleGetBounds 4, abCircleCheck 4⟩

/-- Colour codes (`lcdutils.h`, BGR 5-6-5); only their distinctness matters. -/
def COLOR_VIOLET : Nat := 0xf81f
def COLOR_BLACK : Nat := 0x0000
def COLOR_RED : Nat := 0x001f
def COLOR_ORANGE : Nat := 0x053f
def COLOR_BLUE : Nat := 0xf800

/-- Modelled from the spec: `layerInit` of `shape.h`, which starts every layer
with `posLast = posNext = pos`. -/
def layerInit (l : Layer) : Layer :=
  { l with posLast := l.pos, posNext := l.pos }

/-- Source: `Layer paddle1`, as initialised statically. -/
def paddle1 : Layer :=
  ⟨rect10, ⟨screenWidth / 2, screenHeight / 8 - 5⟩, ⟨0, 0⟩, ⟨0, 0⟩, COLOR_VIOLET⟩

/-- Source: `Layer fieldLayer`. -/
def fieldLayer : Layer :=
  ⟨fieldOutline, ⟨screenWidth / 2, screenHeight / 2⟩, ⟨0, 0⟩, ⟨0, 0⟩, COLOR_BLACK⟩

/-- Source: `Layer paddle2`. -/
def paddle2 : Layer :=
  ⟨rect10, ⟨screenWidth / 2, screenHeight - 16⟩, ⟨0, 0⟩, ⟨0, 0⟩, COLOR_RED⟩

/-- Source: `Layer ballLayer`. -/
def ballLayer : Layer :=
  ⟨circle4, ⟨screenWidth / 2, screenHeight / 2⟩, ⟨0, 0⟩, ⟨0, 0⟩, COLOR_ORANGE⟩

/-! ## Physics (`mlAdvance`, `collCheck`, `scoreCheck`, `resetBall`, paddles) -/

/-- One pass of the `for (axis ...)` body of `mlAdvance`; the loop state is the
pair (velocity, newPos), `shapeBoundary` was computed before the loop. -/
def mlAdvanceAxis (fence shapeBoundary : Region) (st : Vec2 × Vec2) (axis : Nat) :
    Vec2 × Vec2 :=
  if shapeBoundary.topLeft.axes axis < fence.topLeft.axes axis ∨
      shapeBoundary.botRight.axes axis > fence.botRight.axes axis then
    let velocity := - st.1.axes axis
    (st.1.setAxis axis velocity, st.2.setAxis axis (st.2.axes axis + 2 * velocity))
  else st

/-- The body of the `for (; ml; ml = ml->next)` loop of `mlAdvance`. -/
def mlAdvanceBody (ml : MovLayer) (fence : Region) : MovLayer :=
  let newPos := vec2Add ml.layer.posNext ml.velocity
  let shapeBoundary := abShapeGetBounds ml.layer.abShape newPos
  let st := [0, 1].foldl (mlAdvanceAxis fence shapeBoundary) (ml.velocity, newPos)
  { layer := { ml.layer with posNext := st.2 }, velocity := st.1 }

/-- Source `mlAdvance`: advance every moving layer of the chain within the fence. -/
def mlAdvance : List MovLayer → Region → List MovLayer
  | [], _ => []
  | ml :: next, fence => mlAdvanceBody ml fence :: mlAdvance next fence

/-- The condition of the `if` in `collCheck`. -/
def collCond (ballBoundary p1 p2 : Region) : Prop :=
  (ballBoundary.topLeft.axes 1 ≤ p1.botRight.axes 1 ∧
   ballBoundary.topLeft.axes 0 > p1.topLeft.axes 0 ∧
   ballBoundary.topLeft.axes 0 < p1.botRight.axes 0) ∨
  (ballBoundary.botRight.axes 1 ≥ p2.topLeft.axes 1 ∧
   ballBoundary.botRight.axes 0 > p2.topLeft.axes 0 ∧
   ballBoundary.botRight.axes 0 < p2.botRight.axes 0)

instance (b p1 p2 : Region) : Decidable (collCond b p1 p2) := by
  unfold collCond; infer_instance

/-- Source `collCheck`: the local `newPos` is corrected but never stored, only
`ball->velocity.axes[1]` is written. -/
def collCheck (ball : MovLayer) (p1 p2 : Region) : MovLayer :=
  let newPos := vec2Add ball.layer.posNext ball.velocity
  let ballBoundary := abShapeGetBounds ball.layer.abShape newPos
  if collCond ballBoundary p1 p2 then
    { ball with velocity := ball.velocity.setAxis 1 (- ball.velocity.axes 1) }
  else ball

/-- The `++` on a `char` cell: plain `char` is an unsigned 8-bit integer on the
MSP430, so the increment wraps from 255 to 0. -/
def charInc (c : Nat) : Nat := (c + 1) % 256

/-- Source `changeScore`, on the pair (`i[0]`, `i[1]`). -/
def changeScore (i : Nat × Nat) (player : Int) : Nat × Nat :=
  let i := if player = 1 then (charInc i.1, i.2) else i
  if player = 2 then (i.1, charInc i.2) else i

/-- Source `scoreCheck`, on the globals it touches: (`score`, `delay`). -/
def scoreCheck (ml : MovLayer) (fence : Region) (g : (Nat × Nat) × Int) :
    (Nat × Nat) × Int :=
  let newPos := vec2Add ml.layer.posNext ml.velocity
  let shapeBoundary := abShapeGetBounds ml.layer.abShape newPos
  let g := if shapeBoundary.topLeft.axes 1 < fence.topLeft.axes 1 then
      (changeScore g.1 2, (1 : Int)) else g
  if shapeBoundary.botRight.axes 1 > fence.botRight.axes 1 then
    (changeScore g.1 1, g.2) else g

/-- Source `resetBall`: `posNext` becomes the screen centre. -/
def resetBall (ml : MovLayer) : MovLayer :=
  let newPos := vec2Add ml.layer.posNext ml.velocity
  let newPos := newPos.setAxis 0 (screenWidth / 2)
  let newPos := newPos.setAxis 1 (screenHeight / 2)
  { ml with layer := { ml.layer with posNext := newPos } }

/-- Source `movPaddleRight`. -/
def movPaddleRight (ml : MovLayer) : MovLayer :=
  let newPos := vec2Add ml.layer.posNext ml.velocity
  let velocity := ml.velocity.axes 0
  let newPos := newPos.setAxis 0 (newPos.axes 0 + (2 + velocity))
  { ml with layer := { ml.layer with posNext := newPos } }

/-- Source `movPaddleLeft`. -/
def movPaddleLeft (ml : MovLayer) : MovLayer :=
  let newPos := vec2Add ml.layer.posNext ml.velocity
  let velocity := ml.velocity.axes 0
  let newPos := newPos.setAxis 0 (newPos.axes 0 - (2 + velocity))
  { ml with layer := { ml.layer with posNext := newPos } }

/-! ## Commit step of `movLayerDraw` -/

/-- The loop body `l->posLast = l->pos; l->pos = l->posNext;`. -/
def commitLayer (l : Layer) : Layer :=
  { l with posLast := l.pos, pos := l.posNext }

/-- First loop of `movLayerDraw` (run with interrupts disabled): commit every
layer of the moving chain. -/
def movLayerCommit : List MovLayer → List MovLayer
  | [] => []
  | movLayer :: next => { movLayer with layer := commitLayer movLayer.layer } ::
      movLayerCommit next

/-! ## Global state and the watchdog handler -/

/-- The globals of `game.c`.  `ml0` carries `ballLayer`, `ml1` carries
`paddle2`, `ml2` carries `paddle1`; `count` is the handler's static counter. -/
structure GameState where
  ml0 : MovLayer
  ml1 : MovLayer
  ml2 : MovLayer
  fieldLayer : Layer
  score : Nat × Nat
  wait : Int
  delay : Int
  count : Int
  redrawScreen : Int
  fieldFence : Region
  p1 : Region
  p2 : Region

/-- The chain reached from `&ml0`: `ml0 → ml1 → ml2 → 0`. -/
def GameState.chain (s : GameState) : List MovLayer :=
  [s.ml0, s.ml1, s.ml2]

/-- Store a processed chain back into the three nodes. -/
def GameState.setChain (s : GameState) (c : List MovLayer) : GameState :=
  { s with ml0 := c.getD 0 s.ml0, ml1 := c.getD 1 s.ml1, ml2 := c.getD 2 s.ml2 }

/-- The chain reached from `&ballLayer`:
`ballLayer → paddle2 → fieldLayer → paddle1 → 0`. -/
def GameState.layers (s : GameState) : List Layer :=
  [s.ml0.layer, s.ml1.layer, s.fieldLayer, s.ml2.layer]

/-- The loop `while (++wait < limit) {}`: the value of `wait` when it exits. -/
def busyWait (wait limit : Int) : Int :=
  if wait + 1 < limit then busyWait (wait + 1) limit else wait + 1
termination_by (limit - wait).toNat
decreasing_by omega

/-- The call `collCheck(&ml0, &p1, &p2)` on the globals. -/
def collCheckCall (s : GameState) : GameState :=
  { s with ml0 := collCheck s.ml0 s.p1 s.p2 }

/-- The call `mlAdvance(&ml0, &fieldFence)` on the globals. -/
def mlAdvanceCall (s : GameState) : GameState :=
  s.setChain (mlAdvance s.chain s.fieldFence)

/-- The call `scoreCheck(&ml0, &fieldFence)` on the globals. -/
def scoreCheckCall (s : GameState) : GameState :=
  let g := scoreCheck s.ml0 s.fieldFence (s.score, s.delay)
  { s with score := g.1, delay := g.2 }

/-- The call `resetBall(&ml0)` on the globals. -/
def resetBallCall (s : GameState) : GameState :=
  { s with ml0 := resetBall s.ml0 }

/-- The branch `if (delay == 1) { ... }` of the handler. -/
def pauseStep (s : GameState) : GameState :=
  let s := { s with wait := busyWait s.wait 10000 }
  let s := resetBallCall s
  let s := { s with wait := busyWait s.wait 30000 }
  { s with delay := 0, wait := 0 }

/-- The `else` branch of the handler: `collCheck(&ml0, &p1, &p2);
mlAdvance(&ml0, &fieldFence); scoreCheck(&ml0, &fieldFence); count = 0;`. -/
def playStep (s : GameState) : GameState :=
  let s := collCheckCall s
  let s := mlAdvanceCall s
  let s := scoreCheckCall s
  { s with count := 0 }

/-- The character `str[w] = (switches & (1<<w)) ? '-' : '0'+w`, as its code
(`'-'` is 45, `'0'` is 48). -/
def str (switches w : Nat) : Nat :=
  if switches &&& (1 <<< w) ≠ 0 then 45 else 48 + w

/-- The four `if (str[k] == 'k')` statements that move the paddles. -/
def readSwitches (s : GameState) (switches : Nat) : GameState :=
  let s := if str switches 0 = 48 then { s with ml1 := movPaddleLeft s.ml1 } else s
  let s := if str switches 1 = 49 then { s with ml1 := movPaddleRight s.ml1 } else s
  let s := if str switches 2 = 50 then { s with ml2 := movPaddleLeft s.ml2 } else s
  if str switches 3 = 51 then { s with ml2 := movPaddleRight s.ml2 } else s

/-- Source `wdt_c_handler`; `switches` is what `p2sw_read()` returns if it is
called in this invocation.  The LED bit of `P1OUT` is not part of the state. -/
def wdt_c_handler (s : GameState) (switches : Nat) : GameState :=
  let s := { s with count := s.count + 1 }
  if s.count = 15 then
    let s := if s.delay = 1 then pauseStep s else playStep s
    let s := readSwitches s switches
    { s with redrawScreen := 1, count := 0 }
  else s

/-- State effect of `movLayerDraw(&ml0, &ballLayer)`: the commit loop; the
render loops only read the state. -/
def movLayerDraw (s : GameState) : GameState :=
  s.setChain (movLayerCommit s.chain)

/-! ## Runs of the program -/

/-- The globals when `main` enables interrupts: `score` holds two `'0'`,
`layerInit(&ballLayer)` has run over the layer chain and `fieldFence` holds the
bounds of `fieldLayer`. -/
def init : GameState :=
  { ml0 := ⟨layerInit ballLayer, ⟨2, 1⟩⟩
    ml1 := ⟨layerInit paddle2, ⟨0, 0⟩⟩
    ml2 := ⟨layerInit paddle1, ⟨0, 0⟩⟩
    fieldLayer := layerInit fieldLayer
    score := (48, 48)
    wait := 0
    delay := 0
    count := 0
    redrawScreen := 1
    fieldFence := layerGetBounds (layerInit fieldLayer)
    p1 := ⟨⟨0, 0⟩, ⟨0, 0⟩⟩
    p2 := ⟨⟨0, 0⟩, ⟨0, 0⟩⟩ }

/-- What can happen next: a watchdog interrupt (with the switch mask it would
read), or one of the state-changing statements of the main loop.  Interrupts
are enabled between the statements of the main loop, so a run is any
interleaving of these. -/
inductive Event where
  | tick (switches : Nat)
  | clearRedraw
  | draw
  | boundsP1
  | boundsP2

/-- Effect of one event. -/
def step (s : GameState) : Event → GameState
  | .tick switches => wdt_c_handler s switches
  | .clearRedraw => { s with redrawScreen := 0 }
  | .draw => movLayerDraw s
  | .boundsP1 => { s with p1 := layerGetBounds s.ml2.layer }
  | .boundsP2 => { s with p2 := layerGetBounds s.ml1.layer }

/-- Effect of a sequence of events. -/
def run (s : GameState) (es : List Event) : GameState :=
  es.foldl step s

/-- States the program can be in. -/
def Reachable (s : GameState) : Prop :=
  ∃ es : List Event, run init es = s

/-- One frame: fourteen idle interrupts, the physics interrupt sampling
`switches`, then one pass of the main loop. -/
def frame (switches : Nat) : List Event :=
  List.replicate 15 (.tick switches) ++ [.clearRedraw, .draw, .boundsP1, .boundsP2]

/-- The box `b` lies within `fence` on the given axis. -/
def insideAxis (b fence : Region) (axis : Nat) : Prop :=
  fence.topLeft.axes axis ≤ b.topLeft.axes axis ∧
    b.botRight.axes axis ≤ fence.botRight.axes axis

instance (b fence : Region) (axis : Nat) : Decidable (insideAxis b fence axis) := by
  unfold insideAxis; infer_instance

/-- The bounding box of a moving layer at its `posNext`. -/
def boxNext (ml : MovLayer) : Region :=
  abShapeGetBounds ml.layer.abShape ml.layer.posNext

/-! ## Predicates used in the statements -/

/-- The candidate box of a moving layer: the bounds of its shape at
`posNext + velocity`. -/
def candidateBox (ml : MovLayer) : Region :=
  abShapeGetBounds ml.layer.abShape (vec2Add ml.layer.posNext ml.velocity)

/-- The candidate box leaves the fence on the given axis, through either edge. -/
def crosses (ml : MovLayer) (fence : Region) (axis : Nat) : Prop :=
  (candidateBox ml).topLeft.axes axis < fence.topLeft.axes axis ∨
    (candidateBox ml).botRight.axes axis > fence.botRight.axes axis

instance (ml : MovLayer) (fence : Region) (axis : Nat) : Decidable (crosses ml fence axis) := by
  unfold crosses; infer_instance

/-- The paddle test as the specification words it: the box reaches the paddle
vertically and lies strictly within the paddle's span with both its left and
its right edge. -/
def specCollCond (b p1 p2 : Region) : Prop :=
  (b.topLeft.y ≤ p1.botRight.y ∧ p1.topLeft.x < b.topLeft.x ∧ b.botRight.x < p1.botRight.x) ∨
  (b.botRight.y ≥ p2.topLeft.y ∧ p2.topLeft.x < b.topLeft.x ∧ b.botRight.x < p2.botRight.x)

instance (b p1 p2 : Region) : Decidable (specCollCond b p1 p2) := by
  unfold specCollCond; infer_instance

/-- The paddle test with one corner per paddle: the box's left edge strictly
within the span of `p1`, the box's right edge strictly within the span of `p2`. -/
def cornerCollCond (b p1 p2 : Region) : Prop :=
  (b.topLeft.y ≤ p1.botRight.y ∧ p1.topLeft.x < b.topLeft.x ∧ b.topLeft.x < p1.botRight.x) ∨
  (b.botRight.y ≥ p2.topLeft.y ∧ p2.topLeft.x < b.botRight.x ∧ b.botRight.x < p2.botRight.x)

instance (b p1 p2 : Region) : Decidable (cornerCollCond b p1 p2) := by
  unfold cornerCollCond; infer_instance

/-- The candidate box is above the fence's top edge. -/
def breachesTop (ml : MovLayer) (fence : Region) : Prop :=
  (candidateBox ml).topLeft.y < fence.topLeft.y

/-- The candidate box is below the fence's bottom edge. -/
def breachesBottom (ml : MovLayer) (fence : Region) : Prop :=
  (candidateBox ml).botRight.y > fence.botRight.y

instance (ml : MovLayer) (fence : Region) : Decidable (breachesTop ml fence) := by
  unfold breachesTop; infer_instance

instance (ml : MovLayer) (fence : Region) : Decidable (breachesBottom ml fence) := by
  unfold breachesBottom; infer_instance

/-- The field centre `(screenWidth/2, screenHeight/2)`. -/
def fieldCentre : Vec2 :=
  ⟨screenWidth / 2, screenHeight / 2⟩

/-- A ball as in the game (shape `circle4`) with the given `posNext` and velocity. -/
def ballAt (posNext velocity : Vec2) : MovLayer :=
  ⟨{ ballLayer with posNext := posNext }, velocity⟩

/-- Twenty frames with switch 0 held down (mask `0b1110`). -/
def holdLeft : List Event :=
  (List.replicate 20 (frame 14)).flatten

/-- A ball inside the real fence: the radius-4 circle moving by `(±2, ±1)`
whose `posNext` is at least 4 away from every edge of `(10,10)-(118,150)`. -/
def ballOK (m : MovLayer) : Prop :=
  m.layer.abShape = circle4 ∧
  (m.velocity.x = 2 ∨ m.velocity.x = -2) ∧
  (m.velocity.y = 1 ∨ m.velocity.y = -1) ∧
  14 ≤ m.layer.posNext.x ∧ m.layer.posNext.x ≤ 114 ∧
  14 ≤ m.layer.posNext.y ∧ m.layer.posNext.y ≤ 146

/-- A paddle at rest on the given row: the `rect10` rectangle with zero velocity. -/
def paddleRest (m : MovLayer) (row : Int) : Prop :=
  m.velocity = ⟨0, 0⟩ ∧ m.layer.abShape = rect10 ∧ m.layer.posNext.y = row

/-- What every run keeps true: the fence is the field outline's box
`(10,10)-(118,150)`, the ball is inside it, the paddles rest on their rows. -/
def Inv (s : GameState) : Prop :=
  s.fieldFence = ⟨⟨10, 10⟩, ⟨118, 150⟩⟩ ∧ ballOK s.ml0 ∧
    paddleRest s.ml1 144 ∧ paddleRest s.ml2 15

/-! ## Render loops of `movLayerDraw` -/

/-- Calls made on the pixel sink: `lcd_setArea` with its four arguments and
`lcd_writeColor` with the colour. -/
inductive LcdOp where
  | setArea (colStart rowStart colEnd rowEnd : Int)
  | writeColor (color : Nat)
deriving DecidableEq, Repr

/-- Source: `u_int bgColor = COLOR_BLUE;` (never written afterwards). -/
def bgColor : Nat := COLOR_BLUE

/-- The probe loop of `movLayerDraw`: `color = bgColor`, then the layers are
probed in order at their `pos` and the first hit sets the colour and breaks. -/
def probeLayers : List Layer → Vec2 → Nat
  | [], _ => bgColor
  | probeLayer :: next, pixelPos =>
    if abShapeCheck probeLayer.abShape probeLayer.pos pixelPos then probeLayer.color
    else probeLayers next pixelPos

/-- The loop `for (col = ...; col <= bounds.botRight.axes[0]; col++)` from the
current `col` on: one `lcd_writeColor` per pixel of the row. -/
def colLoop (layers : List Layer) (row col colEnd : Int) : List LcdOp :=
  if col ≤ colEnd then
    .writeColor (probeLayers layers ⟨col, row⟩) :: colLoop layers row (col + 1) colEnd
  else []
termination_by (colEnd + 1 - col).toNat
decreasing_by omega

/-- The loop `for (row = ...; row <= bounds.botRight.axes[1]; row++)` from the
current `row` on. -/
def rowLoop (layers : List Layer) (bounds : Region) (row : Int) : List LcdOp :=
  if row ≤ bounds.botRight.axes 1 then
    colLoop layers row (bounds.topLeft.axes 0) (bounds.botRight.axes 0) ++
      rowLoop layers bounds (row + 1)
  else []
termination_by (bounds.botRight.axes 1 + 1 - row).toNat
decreasing_by omega

/-- Body of the second `for (movLayer ...)` loop of `movLayerDraw`: the bounds
of the layer at `pos`, one `lcd_setArea`, then the row and column loops. -/
def renderLayer (layers : List Layer) (movLayer : MovLayer) : List LcdOp :=
  let bounds := layerGetBounds movLayer.layer
  .setArea (bounds.topLeft.axes 0) (bounds.topLeft.axes 1)
      (bounds.botRight.axes 0) (bounds.botRight.axes 1) ::
    rowLoop layers bounds (bounds.topLeft.axes 1)

/-- The second loop of `movLayerDraw`: render every layer of the moving chain. -/
def movLayerRender : List MovLayer → List Layer → List LcdOp
  | [], _ => []
  | movLayer :: next, layers => renderLayer layers movLayer ++ movLayerRender next layers

/-- What `movLayerDraw(&ml0, &ballLayer)` sends to the pixel sink: the render
loops run on the committed state. -/
def movLayerDrawOutput (s : GameState) : List LcdOp :=
  movLayerRender (movLayerDraw s).chain (movLayerDraw s).layers

/-- The pixel colour as the specification words it: the colour of the first
layer in list order whose shape check succeeds at (its `pos`, the pixel), the
background colour when no check succeeds. -/
def specPixelColor (layers : List Layer) (pixelPos : Vec2) : Nat :=
  match layers.find? (fun l => abShapeCheck l.abShape l.pos pixelPos) with
  | some l => l.color
  | none => bgColor

/-- Two layers agree in everything the compositor may read: shape, committed
`pos` and colour (`posNext` and `posLast` are free). -/
def sameVisible (l l' : Layer) : Prop :=
  l'.abShape = l.abShape ∧ l'.pos = l.pos ∧ l'.color = l.color

/-! ## Further predicates used in the statements -/

/-- No switch is pressed in this event: it is a main-loop statement or a tick
whose mask has bits 0 to 3 set. -/
def Event.quiet : Event → Prop
  | .tick switches => switches &&& 15 = 15
  | _ => True

instance (e : Event) : Decidable e.quiet := by
  cases e <;> unfold Event.quiet <;> infer_instance

/-- The ball's box at `posNext` (centre ± 4) is within the vertical extent of
the fence. -/
def ballVertical (s : GameState) : Prop :=
  boxNext s.ml0 = ⟨⟨s.ml0.layer.posNext.x - 4, s.ml0.layer.posNext.y - 4⟩,
                   ⟨s.ml0.layer.posNext.x + 4, s.ml0.layer.posNext.y + 4⟩⟩ ∧
  s.fieldFence.topLeft.y ≤ s.ml0.layer.posNext.y - 4 ∧
  s.ml0.layer.posNext.y + 4 ≤ s.fieldFence.botRight.y

/-- A function on moving layers that writes neither `pos` nor `posLast`. -/
def keepsCommitted (f : MovLayer → MovLayer) : Prop :=
  ∀ m : MovLayer, (f m).layer.pos = m.layer.pos ∧ (f m).layer.posLast = m.layer.posLast

/-- The body of `if (count == 15) { ... }` in the handler. -/
def physicsStep (s : GameState) (switches : Nat) : GameState :=
  let s := if s.delay = 1 then pauseStep s else playStep s
  let s := readSwitches s switches
  { s with redrawScreen := 1, count := 0 }

/-- The ball is not on a fence edge while moving away from it: not at the
lowest row moving up, not at the highest row moving down. -/
def ballClear (m : MovLayer) : Prop :=
  ¬ (m.layer.posNext.y = 146 ∧ m.velocity.y = -1) ∧
  ¬ (m.layer.posNext.y = 14 ∧ m.velocity.y = 1)

/-- A paddle as in the game (shape `rect10`) with the given `posNext` and velocity. -/
def paddleAt (posNext velocity : Vec2) : MovLayer :=
  ⟨{ paddle2 with posNext := posNext }, velocity⟩

/-- The ball's box moved on by the reversed velocity: the bounds of its shape
at `posNext + (vx, -vy)`, the candidate `mlAdvance` looks at once `collCheck`
has reversed the vertical velocity. -/
def reversedBox (ml : MovLayer) : Region :=
  abShapeGetBounds ml.layer.abShape
    (vec2Add ml.layer.posNext ⟨ml.velocity.x, - ml.velocity.y⟩)

/-! ## Basic lemmas -/

@[simp] theorem Vec2.axes_zero (v : Vec2) : v.axes 0 = v.x := rfl

@[simp] theorem Vec2.axes_one (v : Vec2) : v.axes 1 = v.y := rfl

@[simp] theorem Vec2.setAxis_zero (v : Vec2) (a : Int) : v.setAxis 0 a = ⟨a, v.y⟩ := rfl

@[simp] theorem Vec2.setAxis_one (v : Vec2) (a : Int) : v.setAxis 1 a = ⟨v.x, a⟩ := rfl

/-- Closed form of one `mlAdvance` pass on a moving layer: each axis is decided
on the uncorrected candidate box. -/
theorem mlAdvanceBody_eq (ml : MovLayer) (fence : Region) :
    mlAdvanceBody ml fence =
      { layer := { ml.layer with posNext :=
          ⟨if crosses ml fence 0 then ml.layer.posNext.x - ml.velocity.x
            else ml.layer.posNext.x + ml.velocity.x,
           if crosses ml fence 1 then ml.layer.posNext.y - ml.velocity.y
            else ml.layer.posNext.y + ml.velocity.y⟩ },
        velocity :=
          ⟨if crosses ml fence 0 then - ml.velocity.x else ml.velocity.x,
           if crosses ml fence 1 then - ml.velocity.y else ml.velocity.y⟩ } := by
  unfold mlAdvanceBody crosses candidateBox
  simp only [List.foldl, mlAdvanceAxis, Vec2.axes_zero, Vec2.axes_one]
  by_cases h0 : (abShapeGetBounds ml.layer.abShape (vec2Add ml.layer.posNext ml.velocity)).topLeft.x
        < fence.topLeft.x ∨
      (abShapeGetBounds ml.layer.abShape (vec2Add ml.layer.posNext ml.velocity)).botRight.x
        > fence.botRight.x <;>
  by_cases h1 : (abShapeGetBounds ml.layer.abShape (vec2Add ml.layer.posNext ml.velocity)).topLeft.y
        < fence.topLeft.y ∨
      (abShapeGetBounds ml.layer.abShape (vec2Add ml.layer.posNext ml.velocity)).botRight.y
        > fence.botRight.y <;>
  simp only [h0, h1, if_true, if_false, Vec2.setAxis_zero, Vec2.setAxis_one,
    Vec2.axes_zero, Vec2.axes_one] <;>
  simp only [vec2Add, MovLayer.mk.injEq, Layer.mk.injEq, Vec2.mk.injEq,
    true_and, and_true, and_self] <;>
  omega

/-- The `if` of `collCheck`, on the candidate box. -/
theorem collCheck_def (ball : MovLayer) (p1 p2 : Region) :
    collCheck ball p1 p2 =
      if collCond (candidateBox ball) p1 p2 then
        { ball with velocity := ball.velocity.setAxis 1 (- ball.velocity.axes 1) }
      else ball := rfl

theorem busyWait_ge (wait limit : Int) : limit ≤ busyWait wait limit := by
  unfold busyWait
  split
  · exact busyWait_ge (wait + 1) limit
  · omega
termination_by (limit - wait).toNat
decreasing_by omega

/-! ## Wall reflection (C2) -/

/-- C2. For every moving layer of the chain, every fence and both axes,
`mlAdvance` negates the velocity component on an axis exactly when the
candidate box crosses the fence on that axis (top-left below the fence's
top-left or bottom-right above the fence's bottom-right); the new component is
then minus the old one, so its magnitude is preserved, and otherwise the
component is unchanged. -/
theorem mlAdvance_reflects (mls : List MovLayer) (fence : Region) :
    List.Forall₂ (fun ml ml' =>
      ml'.velocity.axes 0 =
        (if crosses ml fence 0 then - ml.velocity.axes 0 else ml.velocity.axes 0) ∧
      ml'.velocity.axes 1 =
        (if crosses ml fence 1 then - ml.velocity.axes 1 else ml.velocity.axes 1) ∧
      (ml'.velocity.axes 0).natAbs = (ml.velocity.axes 0).natAbs ∧
      (ml'.velocity.axes 1).natAbs = (ml.velocity.axes 1).natAbs)
      mls (mlAdvance mls fence) := by
  induction mls with
  | nil => exact List.Forall₂.nil
  | cons ml next ih =>
    refine List.Forall₂.cons ?_ ih
    rw [mlAdvanceBody_eq]
    refine ⟨rfl, rfl, ?_, ?_⟩ <;> simp only [Vec2.axes_zero, Vec2.axes_one] <;>
      split <;> simp

/-! ## Paddle collision (C3, C4) -/

/-- C3. `collCheck(&ml0, &p1, &p2)` changes nothing but the ball's vertical
velocity, which becomes either its old value or the negation of it: the ball's
layer (`pos`, `posLast`, `posNext`), its horizontal velocity, every other layer
and every other global are as before. -/
theorem collCheck_frame (s : GameState) :
    ∃ vy : Int, (vy = s.ml0.velocity.y ∨ vy = - s.ml0.velocity.y) ∧
      collCheckCall s = { s with ml0 := ⟨s.ml0.layer, ⟨s.ml0.velocity.x, vy⟩⟩ } := by
  by_cases h : collCond (candidateBox s.ml0) s.p1 s.p2
  · refine ⟨- s.ml0.velocity.y, Or.inr rfl, ?_⟩
    unfold candidateBox at h
    simp only [collCheckCall, collCheck, h, if_true, Vec2.setAxis_one, Vec2.axes_one]
  · refine ⟨s.ml0.velocity.y, Or.inl rfl, ?_⟩
    unfold candidateBox at h
    simp only [collCheckCall, collCheck, h, if_false]

/-- C4, as stated, fails: with the paddles at their initial places and the ball
at `posNext = (74, 25)` moving by `(2, -1)`, the candidate box `(72,20)-(80,28)`
reaches over the right end of `p1` (80 > 79), so the stated condition is false,
and still `collCheck` turns the vertical velocity from `-1` to `1`. -/
theorem collCheck_spec_cond_fails :
    candidateBox (ballAt ⟨74, 25⟩ ⟨2, -1⟩) = ⟨⟨72, 20⟩, ⟨80, 28⟩⟩ ∧
    ¬ specCollCond (candidateBox (ballAt ⟨74, 25⟩ ⟨2, -1⟩))
        ⟨⟨49, 10⟩, ⟨79, 20⟩⟩ ⟨⟨49, 139⟩, ⟨79, 149⟩⟩ ∧
    (collCheck (ballAt ⟨74, 25⟩ ⟨2, -1⟩)
        ⟨⟨49, 10⟩, ⟨79, 20⟩⟩ ⟨⟨49, 139⟩, ⟨79, 149⟩⟩).velocity.y = 1 := by
  decide

/-- C4, amended. For every ball and paddle regions `p1`, `p2`, `collCheck`
negates the vertical velocity if and only if the candidate box has its top edge
at or above `p1`'s bottom edge and its left edge strictly within `p1`'s span,
or has its bottom edge at or below `p2`'s top edge and its right edge strictly
within `p2`'s span; otherwise the vertical velocity is unchanged. -/
theorem collCheck_corner_cond (ball : MovLayer) (p1 p2 : Region) :
    (collCheck ball p1 p2).velocity.y =
      (if cornerCollCond (candidateBox ball) p1 p2 then - ball.velocity.y
        else ball.velocity.y) := by
  have hiff : collCond (candidateBox ball) p1 p2 ↔ cornerCollCond (candidateBox ball) p1 p2 := by
    unfold collCond cornerCollCond
    simp only [Vec2.axes_zero, Vec2.axes_one, gt_iff_lt]
  rw [collCheck_def]
  by_cases h : collCond (candidateBox ball) p1 p2
  · rw [if_pos h, if_pos (hiff.mp h)]
    rfl
  · rw [if_neg h, if_neg (fun c => h (hiff.mpr c))]

/-! ## Scoring (C5, C6, C8) -/

/-- Closed form of `scoreCheck`: the two tests are independent, the top test
bumps `score[1]` and sets `delay`, the bottom test bumps `score[0]`. -/
theorem scoreCheck_eq (ml : MovLayer) (fence : Region) (score : Nat × Nat) (delay : Int) :
    scoreCheck ml fence (score, delay) =
      ((if breachesBottom ml fence then charInc score.1 else score.1,
        if breachesTop ml fence then charInc score.2 else score.2),
       if breachesTop ml fence then 1 else delay) := by
  have hdef : scoreCheck ml fence (score, delay) =
      (if breachesBottom ml fence then
        (changeScore (if breachesTop ml fence then
            (changeScore score 2, (1 : Int)) else (score, delay)).1 1,
          (if breachesTop ml fence then
            (changeScore score 2, (1 : Int)) else (score, delay)).2)
      else
        (if breachesTop ml fence then
            (changeScore score 2, (1 : Int)) else (score, delay))) := rfl
  rw [hdef]
  by_cases ht : breachesTop ml fence <;> by_cases hb : breachesBottom ml fence <;>
    simp [ht, hb, changeScore]

/-- C5, as stated, fails: the fence `(10,10)-(15,15)` has `topLeft <= botRight`
but is lower than the ball; the candidate box `(8,8)-(16,16)` breaches its top
and its bottom edge, and one call of `scoreCheck` increments both counters. -/
theorem scoreCheck_both_increment :
    (10 : Int) ≤ 15 ∧
    candidateBox (ballAt ⟨10, 11⟩ ⟨2, 1⟩) = ⟨⟨8, 8⟩, ⟨16, 16⟩⟩ ∧
    scoreCheck (ballAt ⟨10, 11⟩ ⟨2, 1⟩) ⟨⟨10, 10⟩, ⟨15, 15⟩⟩ ((48, 48), 0) = ((49, 49), 1) := by
  decide

/-- C5, amended. For every ball state and every fence that is at least as high
as the candidate box, one call of `scoreCheck` never increments both counters:
the box cannot breach both the top and the bottom edge, a top breach increments
only `score[1]`, a bottom breach increments only `score[0]` (each by one, as an
8-bit `char`), and with no breach both counters are unchanged. -/
theorem scoreCheck_at_most_one (ml : MovLayer) (fence : Region) (score : Nat × Nat)
    (delay : Int)
    (hfit : (candidateBox ml).botRight.y - (candidateBox ml).topLeft.y ≤
      fence.botRight.y - fence.topLeft.y) :
    ¬ (breachesTop ml fence ∧ breachesBottom ml fence) ∧
    (scoreCheck ml fence (score, delay)).1 =
      (if breachesBottom ml fence then (score.1 + 1) % 256 else score.1,
       if breachesTop ml fence then (score.2 + 1) % 256 else score.2) := by
  refine ⟨?_, ?_⟩
  · unfold breachesTop breachesBottom
    omega
  · rw [scoreCheck_eq]
    rfl

/-- Witness for C5 (amended): the real fence, ball at its top edge moving up. -/
theorem scoreCheck_at_most_one_witness :
    (candidateBox (ballAt ⟨64, 14⟩ ⟨2, -1⟩)).botRight.y -
        (candidateBox (ballAt ⟨64, 14⟩ ⟨2, -1⟩)).topLeft.y ≤
      (⟨⟨10, 10⟩, ⟨118, 150⟩⟩ : Region).botRight.y -
        (⟨⟨10, 10⟩, ⟨118, 150⟩⟩ : Region).topLeft.y ∧
    (¬ (breachesTop (ballAt ⟨64, 14⟩ ⟨2, -1⟩) ⟨⟨10, 10⟩, ⟨118, 150⟩⟩ ∧
        breachesBottom (ballAt ⟨64, 14⟩ ⟨2, -1⟩) ⟨⟨10, 10⟩, ⟨118, 150⟩⟩) ∧
      (scoreCheck (ballAt ⟨64, 14⟩ ⟨2, -1⟩) ⟨⟨10, 10⟩, ⟨118, 150⟩⟩ ((48, 48), 0)).1 =
        (if breachesBottom (ballAt ⟨64, 14⟩ ⟨2, -1⟩) ⟨⟨10, 10⟩, ⟨118, 150⟩⟩
          then (48 + 1) % 256 else 48,
         if breachesTop (ballAt ⟨64, 14⟩ ⟨2, -1⟩) ⟨⟨10, 10⟩, ⟨118, 150⟩⟩
          then (48 + 1) % 256 else 48)) :=
  ⟨by decide, scoreCheck_at_most_one _ _ (48, 48) 0 (by decide)⟩

/-- C6, as stated, fails: with the real fence, the ball at its top edge moving
up (candidate box top 9, above the fence's top 10, bottom inside) and
`score[1]` at 255, `scoreCheck` does not increase `score[1]` by 1: the `char`
wraps to 0. -/
theorem scoreCheck_top_wraps :
    breachesTop { init with ml0 := ballAt ⟨64, 14⟩ ⟨2, -1⟩, score := (48, 255) }.ml0
        { init with ml0 := ballAt ⟨64, 14⟩ ⟨2, -1⟩, score := (48, 255) }.fieldFence ∧
    ¬ breachesBottom { init with ml0 := ballAt ⟨64, 14⟩ ⟨2, -1⟩, score := (48, 255) }.ml0
        { init with ml0 := ballAt ⟨64, 14⟩ ⟨2, -1⟩, score := (48, 255) }.fieldFence ∧
    (scoreCheckCall { init with ml0 := ballAt ⟨64, 14⟩ ⟨2, -1⟩, score := (48, 255) }).score.2
      = 0 ∧
    (scoreCheckCall { init with ml0 := ballAt ⟨64, 14⟩ ⟨2, -1⟩, score := (48, 255) }).score.2
      ≠ { init with ml0 := ballAt ⟨64, 14⟩ ⟨2, -1⟩, score := (48, 255) }.score.2 + 1 := by
  decide

/-- C6, amended. When the candidate box has its top edge strictly above the
fence's top edge and its bottom edge not below the fence's bottom edge,
`scoreCheck(&ml0, &fieldFence)` adds one to `score[1]` modulo 256 (the counter
is an 8-bit `char`: a true `+ 1` while it is below 255, and 255 wraps to 0),
leaves `score[0]` unchanged, sets `delay` to 1 and leaves the ball (in
particular its `posNext` and velocity) unchanged. -/
theorem scoreCheck_top (s : GameState)
    (htop : breachesTop s.ml0 s.fieldFence) (hbot : ¬ breachesBottom s.ml0 s.fieldFence) :
    (scoreCheckCall s).score.2 = (s.score.2 + 1) % 256 ∧
    (s.score.2 < 255 → (scoreCheckCall s).score.2 = s.score.2 + 1) ∧
    (scoreCheckCall s).score.1 = s.score.1 ∧
    (scoreCheckCall s).delay = 1 ∧
    (scoreCheckCall s).ml0 = s.ml0 := by
  have h : scoreCheck s.ml0 s.fieldFence (s.score, s.delay) =
      ((s.score.1, charInc s.score.2), 1) := by
    rw [scoreCheck_eq, if_pos htop, if_neg hbot, if_pos htop]
  refine ⟨?_, ?_, ?_, ?_, ?_⟩ <;> simp only [scoreCheckCall, h, charInc]
  intro hlt
  omega

/-- Witness for C6 (amended): the real fence, ball at its top edge moving up. -/
theorem scoreCheck_top_witness :
    breachesTop { init with ml0 := ballAt ⟨64, 14⟩ ⟨2, -1⟩ }.ml0
        { init with ml0 := ballAt ⟨64, 14⟩ ⟨2, -1⟩ }.fieldFence ∧
    ¬ breachesBottom { init with ml0 := ballAt ⟨64, 14⟩ ⟨2, -1⟩ }.ml0
        { init with ml0 := ballAt ⟨64, 14⟩ ⟨2, -1⟩ }.fieldFence ∧
    (scoreCheckCall { init with ml0 := ballAt ⟨64, 14⟩ ⟨2, -1⟩ }).score = (48, 49) ∧
    (scoreCheckCall { init with ml0 := ballAt ⟨64, 14⟩ ⟨2, -1⟩ }).delay = 1 :=
  have h := scoreCheck_top { init with ml0 := ballAt ⟨64, 14⟩ ⟨2, -1⟩ }
    (by decide) (by decide)
  ⟨by decide, by decide, Prod.ext h.2.2.1 h.1, h.2.2.2.1⟩

/-- C8, as stated, fails: with the real fence, the ball at its bottom edge
moving down (candidate box bottom 151, below the fence's bottom 150, top
inside) and `score[0]` at 255, `scoreCheck` does not increase `score[0]` by 1:
the `char` wraps to 0. -/
theorem scoreCheck_bottom_wraps :
    breachesBottom { init with ml0 := ballAt ⟨64, 146⟩ ⟨2, 1⟩, score := (255, 48) }.ml0
        { init with ml0 := ballAt ⟨64, 146⟩ ⟨2, 1⟩, score := (255, 48) }.fieldFence ∧
    ¬ breachesTop { init with ml0 := ballAt ⟨64, 146⟩ ⟨2, 1⟩, score := (255, 48) }.ml0
        { init with ml0 := ballAt ⟨64, 146⟩ ⟨2, 1⟩, score := (255, 48) }.fieldFence ∧
    (scoreCheckCall { init with ml0 := ballAt ⟨64, 146⟩ ⟨2, 1⟩, score := (255, 48) }).score.1
      = 0 ∧
    (scoreCheckCall { init with ml0 := ballAt ⟨64, 146⟩ ⟨2, 1⟩, score := (255, 48) }).score.1
      ≠ { init with ml0 := ballAt ⟨64, 146⟩ ⟨2, 1⟩, score := (255, 48) }.score.1 + 1 := by
  decide

/-- C8, amended. When the candidate box has its bottom edge strictly below the
fence's bottom edge and its top edge not above the fence's top edge,
`scoreCheck(&ml0, &fieldFence)` adds one to `score[0]` modulo 256 (the counter
is an 8-bit `char`: a true `+ 1` while it is below 255, and 255 wraps to 0),
leaves `score[1]` unchanged and leaves `delay` at its previous value. -/
theorem scoreCheck_bottom (s : GameState)
    (hbot : breachesBottom s.ml0 s.fieldFence) (htop : ¬ breachesTop s.ml0 s.fieldFence) :
    (scoreCheckCall s).score.1 = (s.score.1 + 1) % 256 ∧
    (s.score.1 < 255 → (scoreCheckCall s).score.1 = s.score.1 + 1) ∧
    (scoreCheckCall s).score.2 = s.score.2 ∧
    (scoreCheckCall s).delay = s.delay := by
  have h : scoreCheck s.ml0 s.fieldFence (s.score, s.delay) =
      ((charInc s.score.1, s.score.2), s.delay) := by
    rw [scoreCheck_eq, if_pos hbot, if_neg htop, if_neg htop]
  refine ⟨?_, ?_, ?_, ?_⟩ <;> simp only [scoreCheckCall, h, charInc]
  intro hlt
  omega

/-- Witness for C8 (amended): the real fence, ball at its bottom edge moving down. -/
theorem scoreCheck_bottom_witness :
    breachesBottom { init with ml0 := ballAt ⟨64, 146⟩ ⟨2, 1⟩ }.ml0
        { init with ml0 := ballAt ⟨64, 146⟩ ⟨2, 1⟩ }.fieldFence ∧
    ¬ breachesTop { init with ml0 := ballAt ⟨64, 146⟩ ⟨2, 1⟩ }.ml0
        { init with ml0 := ballAt ⟨64, 146⟩ ⟨2, 1⟩ }.fieldFence ∧
    (scoreCheckCall { init with ml0 := ballAt ⟨64, 146⟩ ⟨2, 1⟩ }).score = (49, 48) ∧
    (scoreCheckCall { init with ml0 := ballAt ⟨64, 146⟩ ⟨2, 1⟩ }).delay = 0 :=
  have h := scoreCheck_bottom { init with ml0 := ballAt ⟨64, 146⟩ ⟨2, 1⟩ }
    (by decide) (by decide)
  ⟨by decide, by decide, Prod.ext h.1 h.2.2.1, h.2.2.2⟩

/-! ## The pause tick (C7) -/

/-- The handler on its fifteenth count with the pause flag set: the ball is
reset, the paddles take the switch input, nothing else moves. -/
theorem wdt_c_handler_pause (s : GameState) (switches : Nat)
    (hc : s.count = 14) (hd : s.delay = 1) :
    wdt_c_handler s switches =
      { readSwitches (resetBallCall s) switches with
        wait := 0, delay := 0, count := 0, redrawScreen := 1 } := by
  have h15 : s.count + 1 = 15 := by omega
  simp only [wdt_c_handler, h15, if_true, hd, pauseStep, resetBallCall, readSwitches]
  split <;> split <;> split <;> split <;> rfl

/-- The handler on its fifteenth count with the pause flag clear. -/
theorem wdt_c_handler_play (s : GameState) (switches : Nat)
    (hc : s.count = 14) (hd : s.delay ≠ 1) :
    wdt_c_handler s switches =
      { readSwitches (scoreCheckCall (mlAdvanceCall (collCheckCall s))) switches with
        count := 0, redrawScreen := 1 } := by
  have h15 : s.count + 1 = 15 := by omega
  simp only [wdt_c_handler, h15, if_true, hd, if_false, playStep, scoreCheckCall,
    mlAdvanceCall, collCheckCall, readSwitches, GameState.setChain, GameState.chain]
  split <;> split <;> split <;> split <;> rfl

/-- The input stage never touches the ball, the score or the pause flag. -/
theorem readSwitches_ml0 (s : GameState) (switches : Nat) :
    (readSwitches s switches).ml0 = s.ml0 ∧
    (readSwitches s switches).score = s.score ∧
    (readSwitches s switches).delay = s.delay ∧
    (readSwitches s switches).fieldFence = s.fieldFence := by
  unfold readSwitches
  refine ⟨?_, ?_, ?_, ?_⟩ <;> (split <;> split <;> split <;> split <;> rfl)

/-- C7. On a physics tick (the handler's fifteenth count) taken with
`delay == 1`, whatever the ball's position and velocity were: the ball's
`posNext` becomes the field centre `(screenWidth/2, screenHeight/2) = (64, 80)`,
the ball's velocity and both score counters are unchanged, `delay` and `wait`
are 0 afterwards, and `collCheck`, `mlAdvance` and `scoreCheck` are not applied
(both paddles come out exactly as the switch stage alone leaves them); the
commit of the next `movLayerDraw` makes the ball's `pos` the field centre. -/
theorem pause_tick_resets_ball (s : GameState) (switches : Nat)
    (hc : s.count = 14) (hd : s.delay = 1) :
    (wdt_c_handler s switches).ml0.layer.posNext = fieldCentre ∧
    fieldCentre = ⟨64, 80⟩ ∧
    (wdt_c_handler s switches).ml0.velocity = s.ml0.velocity ∧
    (wdt_c_handler s switches).score = s.score ∧
    (wdt_c_handler s switches).delay = 0 ∧
    (wdt_c_handler s switches).wait = 0 ∧
    (wdt_c_handler s switches).ml1 = (readSwitches s switches).ml1 ∧
    (wdt_c_handler s switches).ml2 = (readSwitches s switches).ml2 ∧
    (movLayerDraw (wdt_c_handler s switches)).ml0.layer.pos = fieldCentre := by
  rw [wdt_c_handler_pause s switches hc hd]
  have h0 := (readSwitches_ml0 (resetBallCall s) switches).1
  have hs := (readSwitches_ml0 (resetBallCall s) switches).2.1
  refine ⟨?_, by decide, ?_, ?_, rfl, rfl, ?_, ?_, ?_⟩
  · show (readSwitches (resetBallCall s) switches).ml0.layer.posNext = fieldCentre
    rw [h0]; rfl
  · show (readSwitches (resetBallCall s) switches).ml0.velocity = s.ml0.velocity
    rw [h0]; rfl
  · exact hs
  · show (readSwitches (resetBallCall s) switches).ml1 = (readSwitches s switches).ml1
    unfold readSwitches
    split <;> split <;> split <;> split <;> rfl
  · show (readSwitches (resetBallCall s) switches).ml2 = (readSwitches s switches).ml2
    unfold readSwitches
    split <;> split <;> split <;> split <;> rfl
  · show (commitLayer (readSwitches (resetBallCall s) switches).ml0.layer).pos = fieldCentre
    rw [h0]; rfl

/-- Witness for C7: the initial globals, brought to the fifteenth count with the
pause flag set and the ball near the top edge; no switch is pressed. -/
theorem pause_tick_resets_ball_witness :
    { init with count := 14, delay := 1, ml0 := ballAt ⟨70, 14⟩ ⟨2, -1⟩ }.count = 14 ∧
    { init with count := 14, delay := 1, ml0 := ballAt ⟨70, 14⟩ ⟨2, -1⟩ }.delay = 1 ∧
    (wdt_c_handler { init with count := 14, delay := 1, ml0 := ballAt ⟨70, 14⟩ ⟨2, -1⟩ }
      15).ml0.layer.posNext = ⟨64, 80⟩ ∧
    (movLayerDraw (wdt_c_handler
      { init with count := 14, delay := 1, ml0 := ballAt ⟨70, 14⟩ ⟨2, -1⟩ }
      15)).ml0.layer.pos = ⟨64, 80⟩ :=
  have h := pause_tick_resets_ball
    { init with count := 14, delay := 1, ml0 := ballAt ⟨70, 14⟩ ⟨2, -1⟩ } 15 rfl rfl
  ⟨rfl, rfl, h.1.trans h.2.1, h.2.2.2.2.2.2.2.2.trans h.2.1⟩

/-! ## Switch input (C9) -/

/-- A moving layer at rest is left as it is by `mlAdvance`: reflecting a zero
velocity and correcting by twice zero changes nothing. -/
theorem mlAdvanceBody_still (ml : MovLayer) (fence : Region) (hv : ml.velocity = ⟨0, 0⟩) :
    mlAdvanceBody ml fence = ml := by
  rw [mlAdvanceBody_eq]
  obtain ⟨⟨sh, pos, posLast, posNext, color⟩, vel⟩ := ml
  simp only at hv
  subst hv
  simp

/-- With switch 0 pressed and switches 1 to 3 up, the input stage is one
`movPaddleLeft(&ml1)`. -/
theorem readSwitches_only0 (s : GameState) (switches : Nat)
    (h0 : switches &&& 1 = 0) (h1 : switches &&& 2 ≠ 0) (h2 : switches &&& 4 ≠ 0)
    (h3 : switches &&& 8 ≠ 0) :
    readSwitches s switches = { s with ml1 := movPaddleLeft s.ml1 } := by
  have e0 : str switches 0 = 48 := by
    show (if switches &&& 1 ≠ 0 then 45 else 48 + 0) = 48
    rw [if_neg (not_not.mpr h0)]
  have e1 : str switches 1 ≠ 49 := by
    show (if switches &&& 2 ≠ 0 then 45 else 48 + 1) ≠ 49
    rw [if_pos h1]; decide
  have e2 : str switches 2 ≠ 50 := by
    show (if switches &&& 4 ≠ 0 then 45 else 48 + 2) ≠ 50
    rw [if_pos h2]; decide
  have e3 : str switches 3 ≠ 51 := by
    show (if switches &&& 8 ≠ 0 then 45 else 48 + 3) ≠ 51
    rw [if_pos h3]; decide
  simp only [readSwitches, e0, e1, e2, e3, if_true, if_false]

/-- C9. On a physics tick (the handler's fifteenth count) whose switch mask has
bit 0 clear and bits 1, 2, 3 set, with both paddles at zero velocity: the
paddle of `ml1` (layer `paddle2`) has its `posNext.x` decreased by exactly 2 and
its `posNext.y` unchanged, and the paddle of `ml2` (layer `paddle1`) keeps its
`posNext`; this is the effect of the input stage and of the whole tick. -/
theorem switch0_moves_paddle2_left (s : GameState) (switches : Nat)
    (hc : s.count = 14) (hv1 : s.ml1.velocity = ⟨0, 0⟩) (hv2 : s.ml2.velocity = ⟨0, 0⟩)
    (h0 : switches &&& 1 = 0) (h1 : switches &&& 2 ≠ 0) (h2 : switches &&& 4 ≠ 0)
    (h3 : switches &&& 8 ≠ 0) :
    ((readSwitches s switches).ml1.layer.posNext =
        ⟨s.ml1.layer.posNext.x - 2, s.ml1.layer.posNext.y⟩ ∧
      (readSwitches s switches).ml2.layer.posNext = s.ml2.layer.posNext) ∧
    ((wdt_c_handler s switches).ml1.layer.posNext =
        ⟨s.ml1.layer.posNext.x - 2, s.ml1.layer.posNext.y⟩ ∧
      (wdt_c_handler s switches).ml2.layer.posNext = s.ml2.layer.posNext) := by
  have hleft : (movPaddleLeft s.ml1).layer.posNext =
      ⟨s.ml1.layer.posNext.x - 2, s.ml1.layer.posNext.y⟩ := by
    simp [movPaddleLeft, vec2Add, hv1]
  refine ⟨?_, ?_⟩
  · rw [readSwitches_only0 s switches h0 h1 h2 h3]
    exact ⟨hleft, rfl⟩
  · by_cases hd : s.delay = 1
    · rw [wdt_c_handler_pause s switches hc hd, readSwitches_only0 _ switches h0 h1 h2 h3]
      exact ⟨hleft, rfl⟩
    · rw [wdt_c_handler_play s switches hc hd, readSwitches_only0 _ switches h0 h1 h2 h3]
      have m1 : (scoreCheckCall (mlAdvanceCall (collCheckCall s))).ml1 = s.ml1 :=
        mlAdvanceBody_still s.ml1 s.fieldFence hv1
      have m2 : (scoreCheckCall (mlAdvanceCall (collCheckCall s))).ml2 = s.ml2 :=
        mlAdvanceBody_still s.ml2 s.fieldFence hv2
      refine ⟨?_, ?_⟩
      · show (movPaddleLeft (scoreCheckCall (mlAdvanceCall (collCheckCall s))).ml1).layer.posNext
          = _
        rw [m1]; exact hleft
      · show (scoreCheckCall (mlAdvanceCall (collCheckCall s))).ml2.layer.posNext = _
        rw [m2]

/-- Witness for C9: the initial globals on the fifteenth count, mask `0b1110`. -/
theorem switch0_moves_paddle2_left_witness :
    { init with count := 14 }.count = 14 ∧
    (14 &&& 1 = 0 ∧ 14 &&& 2 ≠ 0 ∧ 14 &&& 4 ≠ 0 ∧ 14 &&& 8 ≠ 0) ∧
    (wdt_c_handler { init with count := 14 } 14).ml1.layer.posNext = ⟨62, 144⟩ ∧
    (wdt_c_handler { init with count := 14 } 14).ml2.layer.posNext = ⟨64, 15⟩ :=
  have h := switch0_moves_paddle2_left { init with count := 14 } 14 rfl rfl rfl
    (by decide) (by decide) (by decide) (by decide)
  ⟨rfl, by decide, h.2.1, h.2.2⟩

/-! ## Commit (C10) -/

/-- C10. The commit step of `movLayerDraw` sets, for every layer of the moving
chain, `posLast` to the old `pos` and `pos` to `posNext`, and leaves `posNext`
(and shape, colour, velocity) unchanged, so afterwards `pos = posNext` on every
moving layer; the field outline, which is not in the moving chain, is
unchanged. -/
theorem movLayerDraw_commits (s : GameState) :
    List.Forall₂ (fun m m' =>
      m'.layer.posLast = m.layer.pos ∧ m'.layer.pos = m.layer.posNext ∧
      m'.layer.posNext = m.layer.posNext ∧ m'.layer.pos = m'.layer.posNext ∧
      m'.layer.abShape = m.layer.abShape ∧ m'.layer.color = m.layer.color ∧
      m'.velocity = m.velocity)
      s.chain (movLayerDraw s).chain ∧
    (movLayerDraw s).fieldLayer = s.fieldLayer := by
  refine ⟨?_, rfl⟩
  show List.Forall₂ _ [s.ml0, s.ml1, s.ml2] (movLayerCommit [s.ml0, s.ml1, s.ml2])
  refine List.Forall₂.cons ?_ (List.Forall₂.cons ?_ (List.Forall₂.cons ?_ List.Forall₂.nil)) <;>
    exact ⟨rfl, rfl, rfl, rfl, rfl, rfl, rfl⟩

/-! ## Containment in the fence (C1) -/

set_option maxRecDepth 100000 in
/-- C1, as stated, fails: holding switch 0 for twenty frames is a run of the
program, it ends with a tick's main-loop pass, and afterwards the paddle of
`ml1` has `posNext = (24, 144)`, so its box `(9,139)-(39,149)` sticks out of the
fence `(10,10)-(118,150)` on the horizontal axis. -/
theorem paddle_leaves_fence :
    Reachable (run init holdLeft) ∧
    (run init holdLeft).fieldFence = ⟨⟨10, 10⟩, ⟨118, 150⟩⟩ ∧
    boxNext (run init holdLeft).ml1 = ⟨⟨9, 139⟩, ⟨39, 149⟩⟩ ∧
    ¬ insideAxis (boxNext (run init holdLeft).ml1) (run init holdLeft).fieldFence 0 := by
  refine ⟨⟨holdLeft, rfl⟩, ?_, ?_, ?_⟩ <;> decide

/-- The invariant only reads the fence and the three moving layers. -/
theorem Inv_of_eq {s t : GameState} (hf : t.fieldFence = s.fieldFence) (h0 : t.ml0 = s.ml0)
    (h1 : t.ml1 = s.ml1) (h2 : t.ml2 = s.ml2) (h : Inv s) : Inv t := by
  unfold Inv at *
  rw [hf, h0, h1, h2]
  exact h

theorem Inv_init : Inv init :=
  ⟨by decide, ⟨rfl, Or.inl rfl, Or.inl rfl, by decide, by decide, by decide, by decide⟩,
    ⟨rfl, rfl, by decide⟩, ⟨rfl, rfl, by decide⟩⟩

theorem collCheck_ballOK (m : MovLayer) (p1 p2 : Region) (h : ballOK m) :
    ballOK (collCheck m p1 p2) := by
  rw [collCheck_def]
  split
  · obtain ⟨hs, hx, hy, hb⟩ := h
    refine ⟨hs, hx, ?_, hb⟩
    simp only [Vec2.setAxis_one, Vec2.axes_one]
    omega
  · exact h

theorem mlAdvanceBody_ballOK (m : MovLayer) (h : ballOK m) :
    ballOK (mlAdvanceBody m ⟨⟨10, 10⟩, ⟨118, 150⟩⟩) := by
  obtain ⟨hs, hx, hy, hx0, hx1, hy0, hy1⟩ := h
  rw [mlAdvanceBody_eq]
  have c0 : crosses m ⟨⟨10, 10⟩, ⟨118, 150⟩⟩ 0 ↔
      (m.layer.posNext.x + m.velocity.x - 4 < 10 ∨ m.layer.posNext.x + m.velocity.x + 4 > 118) := by
    unfold crosses candidateBox
    rw [hs]
    exact Iff.rfl
  have c1 : crosses m ⟨⟨10, 10⟩, ⟨118, 150⟩⟩ 1 ↔
      (m.layer.posNext.y + m.velocity.y - 4 < 10 ∨ m.layer.posNext.y + m.velocity.y + 4 > 150) := by
    unfold crosses candidateBox
    rw [hs]
    exact Iff.rfl
  refine ⟨hs, ?_, ?_, ?_, ?_, ?_, ?_⟩ <;> simp only [] <;> split <;> rename_i hc <;>
    first
    | omega
    | (have hc0 := c0.mp hc; omega)
    | (have hc1 := c1.mp hc; omega)
    | (have hc0 := (not_congr c0).mp hc; omega)
    | (have hc1 := (not_congr c1).mp hc; omega)

theorem resetBall_ballOK (m : MovLayer) (h : ballOK m) : ballOK (resetBall m) := by
  obtain ⟨hs, hx, hy, _⟩ := h
  exact ⟨hs, hx, hy, (by decide : (14 : Int) ≤ screenWidth / 2),
    (by decide : screenWidth / 2 ≤ (114 : Int)), (by decide : (14 : Int) ≤ screenHeight / 2),
    (by decide : screenHeight / 2 ≤ (146 : Int))⟩

theorem movPaddleLeft_rest (m : MovLayer) (row : Int) (h : paddleRest m row) :
    paddleRest (movPaddleLeft m) row := by
  obtain ⟨hv, hs, hy⟩ := h
  refine ⟨hv, hs, ?_⟩
  simp [movPaddleLeft, vec2Add, hv, hy]

theorem movPaddleRight_rest (m : MovLayer) (row : Int) (h : paddleRest m row) :
    paddleRest (movPaddleRight m) row := by
  obtain ⟨hv, hs, hy⟩ := h
  refine ⟨hv, hs, ?_⟩
  simp [movPaddleRight, vec2Add, hv, hy]

theorem readSwitches_Inv (s : GameState) (switches : Nat) (h : Inv s) :
    Inv (readSwitches s switches) := by
  obtain ⟨hf, hb, h1, h2⟩ := h
  have l1 := movPaddleLeft_rest s.ml1 144 h1
  have r1 := movPaddleRight_rest s.ml1 144 h1
  have lr1 := movPaddleRight_rest _ 144 l1
  have l2 := movPaddleLeft_rest s.ml2 15 h2
  have r2 := movPaddleRight_rest s.ml2 15 h2
  have lr2 := movPaddleRight_rest _ 15 l2
  unfold readSwitches
  split <;> split <;> split <;> split <;>
    first
    | exact ⟨hf, hb, h1, h2⟩ | exact ⟨hf, hb, l1, h2⟩ | exact ⟨hf, hb, r1, h2⟩
    | exact ⟨hf, hb, lr1, h2⟩ | exact ⟨hf, hb, h1, l2⟩ | exact ⟨hf, hb, l1, l2⟩
    | exact ⟨hf, hb, r1, l2⟩ | exact ⟨hf, hb, lr1, l2⟩ | exact ⟨hf, hb, h1, r2⟩
    | exact ⟨hf, hb, l1, r2⟩ | exact ⟨hf, hb, r1, r2⟩ | exact ⟨hf, hb, lr1, r2⟩
    | exact ⟨hf, hb, h1, lr2⟩ | exact ⟨hf, hb, l1, lr2⟩ | exact ⟨hf, hb, r1, lr2⟩
    | exact ⟨hf, hb, lr1, lr2⟩

theorem playStep_Inv (s : GameState) (h : Inv s) :
    Inv (scoreCheckCall (mlAdvanceCall (collCheckCall s))) := by
  obtain ⟨hf, hb, h1, h2⟩ := h
  have e1 : (scoreCheckCall (mlAdvanceCall (collCheckCall s))).ml1 = s.ml1 :=
    mlAdvanceBody_still s.ml1 s.fieldFence h1.1
  have e2 : (scoreCheckCall (mlAdvanceCall (collCheckCall s))).ml2 = s.ml2 :=
    mlAdvanceBody_still s.ml2 s.fieldFence h2.1
  have e0 : (scoreCheckCall (mlAdvanceCall (collCheckCall s))).ml0 =
      mlAdvanceBody (collCheck s.ml0 s.p1 s.p2) ⟨⟨10, 10⟩, ⟨118, 150⟩⟩ := by
    rw [← hf]; rfl
  have ef : (scoreCheckCall (mlAdvanceCall (collCheckCall s))).fieldFence = s.fieldFence := rfl
  unfold Inv
  rw [e0, e1, e2, ef]
  exact ⟨hf, mlAdvanceBody_ballOK _ (collCheck_ballOK _ _ _ hb), h1, h2⟩

theorem wdt_c_handler_Inv (s : GameState) (switches : Nat) (h : Inv s) :
    Inv (wdt_c_handler s switches) := by
  by_cases hc : s.count = 14
  · by_cases hd : s.delay = 1
    · rw [wdt_c_handler_pause s switches hc hd]
      have hr : Inv (resetBallCall s) :=
        ⟨h.1, resetBall_ballOK _ h.2.1, h.2.2.1, h.2.2.2⟩
      exact Inv_of_eq rfl rfl rfl rfl (readSwitches_Inv _ switches hr)
    · rw [wdt_c_handler_play s switches hc hd]
      exact Inv_of_eq rfl rfl rfl rfl (readSwitches_Inv _ switches (playStep_Inv s h))
  · have h15 : ¬ (s.count + 1 = 15) := by omega
    have e : wdt_c_handler s switches = { s with count := s.count + 1 } := by
      simp only [wdt_c_handler, h15, if_false]
    rw [e]
    exact Inv_of_eq rfl rfl rfl rfl h

theorem step_Inv (s : GameState) (e : Event) (h : Inv s) : Inv (step s e) := by
  cases e with
  | tick switches => exact wdt_c_handler_Inv s switches h
  | clearRedraw => exact Inv_of_eq rfl rfl rfl rfl h
  | draw =>
    obtain ⟨hf, hb, h1, h2⟩ := h
    exact ⟨hf, hb, h1, h2⟩
  | boundsP1 => exact Inv_of_eq rfl rfl rfl rfl h
  | boundsP2 => exact Inv_of_eq rfl rfl rfl rfl h

theorem run_Inv (es : List Event) (s : GameState) (h : Inv s) : Inv (run s es) := by
  induction es generalizing s with
  | nil => exact h
  | cons e es ih => exact ih (step s e) (step_Inv s e h)

/-- C1, amended. In every state reachable from the initial configuration under
any sequence of ticks, switch inputs and main-loop passes, the ball's box at
`posNext` lies inside the field fence on both axes and each paddle's box at
`posNext` lies inside the fence on the vertical axis; on the horizontal axis a
paddle's box is inside the fence exactly when its `posNext.x` is between 25 and
103, which the unclamped switch steps do not guarantee. -/
theorem reachable_boxes_in_fence (s : GameState) (h : Reachable s) :
    insideAxis (boxNext s.ml0) s.fieldFence 0 ∧
    insideAxis (boxNext s.ml0) s.fieldFence 1 ∧
    insideAxis (boxNext s.ml1) s.fieldFence 1 ∧
    insideAxis (boxNext s.ml2) s.fieldFence 1 ∧
    (insideAxis (boxNext s.ml1) s.fieldFence 0 ↔
      25 ≤ s.ml1.layer.posNext.x ∧ s.ml1.layer.posNext.x ≤ 103) ∧
    (insideAxis (boxNext s.ml2) s.fieldFence 0 ↔
      25 ≤ s.ml2.layer.posNext.x ∧ s.ml2.layer.posNext.x ≤ 103) := by
  obtain ⟨es, rfl⟩ := h
  obtain ⟨hf, ⟨hs, _, _, hx0, hx1, hy0, hy1⟩, ⟨_, hs1, hr1⟩, ⟨_, hs2, hr2⟩⟩ :=
    run_Inv es init Inv_init
  unfold insideAxis boxNext
  rw [hf, hs, hs1, hs2]
  simp only [abShapeGetBounds, circle4, rect10, abCircleGetBounds, abRectGetBounds,
    Vec2.axes_zero, Vec2.axes_one]
  refine ⟨?_, ?_, ?_, ?_, ?_, ?_⟩ <;> omega

/-- Witness for C1 (amended): the state after one frame with no switch pressed. -/
theorem reachable_boxes_in_fence_witness :
    Reachable (run init (frame 15)) ∧
    insideAxis (boxNext (run init (frame 15)).ml0) (run init (frame 15)).fieldFence 0 ∧
    insideAxis (boxNext (run init (frame 15)).ml0) (run init (frame 15)).fieldFence 1 :=
  have h := reachable_boxes_in_fence (run init (frame 15)) ⟨frame 15, rfl⟩
  ⟨⟨frame 15, rfl⟩, h.1, h.2.1⟩

/-! ## Rendering (C11, C14) -/

/-- The column loop emits the probe colour of each pixel from `col` to `colEnd`. -/
theorem colLoop_eq (layers : List Layer) (row colEnd : Int) (n : Nat) :
    ∀ col : Int, (colEnd + 1 - col).toNat = n →
      colLoop layers row col colEnd =
        (List.range n).map (fun k => LcdOp.writeColor (probeLayers layers ⟨col + (k : Nat), row⟩)) := by
  induction n with
  | zero =>
    intro col hn
    rw [colLoop, if_neg (by omega)]
    rfl
  | succ n ih =>
    intro col hn
    rw [colLoop, if_pos (by omega), ih (col + 1) (by omega)]
    have hr : List.range (n + 1) = [0] ++ (List.range n).map (1 + ·) := by
      rw [Nat.add_comm n 1, List.range_add]
      rfl
    rw [hr, List.map_append, List.map_map]
    simp only [List.map_cons, List.map_nil, List.singleton_append,
      Nat.cast_zero, add_zero, List.cons.injEq, true_and]
    apply List.map_congr_left
    intro k _
    simp only [Function.comp_apply, Nat.cast_add, Nat.cast_one]
    rw [add_assoc]

/-- Row-major enumeration of a `w` by `h` grid. -/
theorem range_rowMajor {α : Type} (w h : Nat) (f : Nat → Nat → α) :
    ((List.range h).map (fun r => (List.range w).map (fun c => f c r))).flatten =
      (List.range (w * h)).map (fun k => f (k % w) (k / w)) := by
  induction h with
  | zero => simp
  | succ h ih =>
    rw [List.range_succ, List.map_append, List.flatten_append, ih, Nat.mul_succ,
      List.range_add, List.map_append, List.map_map]
    congr 1
    simp only [List.map_cons, List.map_nil, List.flatten_cons, List.flatten_nil,
      List.append_nil]
    apply List.map_congr_left
    intro c hc
    have hcw : c < w := List.mem_range.mp hc
    have hw : 0 < w := by omega
    simp only [Function.comp_apply]
    rw [Nat.mul_add_mod, Nat.mod_eq_of_lt hcw, Nat.mul_add_div hw, Nat.div_eq_of_lt hcw,
      Nat.add_zero]

/-- The row loop emits the rows from `row` to the bottom of the bounds. -/
theorem rowLoop_eq (layers : List Layer) (bounds : Region) (n : Nat) :
    ∀ row : Int, (bounds.botRight.y + 1 - row).toNat = n →
      rowLoop layers bounds row =
        ((List.range n).map (fun r =>
          (List.range (bounds.botRight.x + 1 - bounds.topLeft.x).toNat).map (fun c =>
            LcdOp.writeColor
              (probeLayers layers ⟨bounds.topLeft.x + (c : Nat), row + (r : Nat)⟩)))).flatten := by
  induction n with
  | zero =>
    intro row hn
    rw [rowLoop, if_neg (by simp only [Vec2.axes_one]; omega)]
    rfl
  | succ n ih =>
    intro row hn
    rw [rowLoop, if_pos (by simp only [Vec2.axes_one]; omega), ih (row + 1) (by omega)]
    simp only [Vec2.axes_zero]
    rw [colLoop_eq layers row bounds.botRight.x _ bounds.topLeft.x rfl]
    have hr : List.range (n + 1) = [0] ++ (List.range n).map (1 + ·) := by
      rw [Nat.add_comm n 1, List.range_add]
      rfl
    rw [hr, List.map_append, List.flatten_append, List.map_map]
    simp only [List.map_cons, List.map_nil, List.flatten_cons,
      List.flatten_nil, List.append_nil, Nat.cast_zero, add_zero]
    congr 2
    apply List.map_congr_left
    intro r _
    simp only [Function.comp_apply, Nat.cast_add, Nat.cast_one]
    rw [add_assoc]

/-- Closed form of the render of one moving layer: the window, then the probe
colours of its pixels in row-major order. -/
theorem renderLayer_eq (layers : List Layer) (m : MovLayer) :
    renderLayer layers m =
      LcdOp.setArea (layerGetBounds m.layer).topLeft.x (layerGetBounds m.layer).topLeft.y
          (layerGetBounds m.layer).botRight.x (layerGetBounds m.layer).botRight.y ::
        (List.range
          (((layerGetBounds m.layer).botRight.x + 1 - (layerGetBounds m.layer).topLeft.x).toNat *
            ((layerGetBounds m.layer).botRight.y + 1 -
              (layerGetBounds m.layer).topLeft.y).toNat)).map (fun k =>
          LcdOp.writeColor (probeLayers layers
            ⟨(layerGetBounds m.layer).topLeft.x +
                ((k % ((layerGetBounds m.layer).botRight.x + 1 -
                  (layerGetBounds m.layer).topLeft.x).toNat : Nat) : Int),
              (layerGetBounds m.layer).topLeft.y +
                ((k / ((layerGetBounds m.layer).botRight.x + 1 -
                  (layerGetBounds m.layer).topLeft.x).toNat : Nat) : Int)⟩)) := by
  unfold renderLayer
  simp only [Vec2.axes_zero, Vec2.axes_one]
  rw [rowLoop_eq layers (layerGetBounds m.layer) _ (layerGetBounds m.layer).topLeft.y rfl]
  rw [range_rowMajor _ _ (fun c r => LcdOp.writeColor (probeLayers layers
    ⟨(layerGetBounds m.layer).topLeft.x + (c : Nat), (layerGetBounds m.layer).topLeft.y + (r : Nat)⟩))]

/-- The probe loop computes the first-match colour. -/
theorem probeLayers_eq_spec (layers : List Layer) (pixelPos : Vec2) :
    probeLayers layers pixelPos = specPixelColor layers pixelPos := by
  induction layers with
  | nil => rfl
  | cons l next ih =>
    unfold specPixelColor at ih ⊢
    by_cases h : abShapeCheck l.abShape l.pos pixelPos = true
    · rw [List.find?_cons_of_pos _ (by simpa using h)]
      simp only [probeLayers, h, if_true]
    · rw [List.find?_cons_of_neg _ (by simpa using h)]
      simp only [probeLayers, h, if_false]
      exact ih

/-- The probe loop reads only shape, `pos` and colour of the layers. -/
theorem probeLayers_congr (layers layers' : List Layer) (pixelPos : Vec2)
    (h : List.Forall₂ sameVisible layers layers') :
    probeLayers layers' pixelPos = probeLayers layers pixelPos := by
  induction h with
  | nil => rfl
  | cons hl _ ih =>
    obtain ⟨hs, hp, hc⟩ := hl
    simp only [probeLayers, hs, hp, hc, ih]

/-- The render loops go through the chain node by node. -/
theorem movLayerRender_append (before after : List MovLayer) (layers : List Layer) :
    movLayerRender (before ++ after) layers =
      movLayerRender before layers ++ movLayerRender after layers := by
  induction before with
  | nil => rfl
  | cons m before ih =>
    show renderLayer layers m ++ movLayerRender (before ++ after) layers = _
    rw [ih]
    simp only [movLayerRender, List.append_assoc]

/-- The op emitted for pixel `(col, row)` of a moving layer's bounds. -/
theorem renderLayer_pixel (layers : List Layer) (m : MovLayer) (x0 y0 x1 y1 : Int)
    (hb : layerGetBounds m.layer = ⟨⟨x0, y0⟩, ⟨x1, y1⟩⟩) (col row : Int)
    (hc0 : x0 ≤ col) (hc1 : col ≤ x1) (hr0 : y0 ≤ row) (hr1 : row ≤ y1) :
    (renderLayer layers m)[1 + ((row - y0).toNat * (x1 - x0 + 1).toNat + (col - x0).toNat)]? =
      some (LcdOp.writeColor (probeLayers layers ⟨col, row⟩)) := by
  rw [renderLayer_eq, hb]
  simp only []
  have hw : (x1 + 1 - x0).toNat = (x1 - x0 + 1).toNat := by omega
  rw [hw]
  generalize hwd : (x1 - x0 + 1).toNat = w
  generalize hhd : (y1 + 1 - y0).toNat = h
  generalize hcd : (col - x0).toNat = c
  generalize hrd : (row - y0).toNat = r
  have hcw : c < w := by omega
  have hrh : r < h := by omega
  have hk : r * w + c < w * h := by
    calc r * w + c < r * w + w := by omega
      _ = w * (r + 1) := by ring
      _ ≤ w * h := Nat.mul_le_mul_left w hrh
  have hmod : (r * w + c) % w = c := by
    rw [Nat.mul_comm, Nat.mul_add_mod, Nat.mod_eq_of_lt hcw]
  have hdiv : (r * w + c) / w = r := by
    rw [Nat.mul_comm, Nat.mul_add_div (by omega), Nat.div_eq_of_lt hcw, Nat.add_zero]
  rw [Nat.add_comm 1, List.getElem?_cons_succ, List.getElem?_map, List.getElem?_range hk]
  simp only [Option.map_some', hmod, hdiv]
  have e1 : x0 + (c : Int) = col := by omega
  have e2 : y0 + (r : Int) = row := by omega
  rw [e1, e2]

/-- C11. For every ordered layer list and every pixel `(col, row)` inside the
bounds of a moved layer, the colour the render loop of `movLayerDraw` emits for
that pixel is the colour of the first layer in list order whose shape check
succeeds at (that layer's `pos`, the pixel), or `bgColor` when no check
succeeds; any layer list with the same order, shapes, `pos` and colours gives
the same colour, whatever its `posNext` and `posLast` are. -/
theorem render_first_match (layers : List Layer) (m : MovLayer) (x0 y0 x1 y1 : Int)
    (hb : layerGetBounds m.layer = ⟨⟨x0, y0⟩, ⟨x1, y1⟩⟩) (col row : Int)
    (hc0 : x0 ≤ col) (hc1 : col ≤ x1) (hr0 : y0 ≤ row) (hr1 : row ≤ y1) :
    (renderLayer layers m)[1 + ((row - y0).toNat * (x1 - x0 + 1).toNat + (col - x0).toNat)]? =
      some (LcdOp.writeColor (specPixelColor layers ⟨col, row⟩)) ∧
    ∀ layers' : List Layer, List.Forall₂ sameVisible layers layers' →
      (renderLayer layers' m)[1 + ((row - y0).toNat * (x1 - x0 + 1).toNat +
          (col - x0).toNat)]? =
        some (LcdOp.writeColor (specPixelColor layers ⟨col, row⟩)) := by
  refine ⟨?_, ?_⟩
  · rw [renderLayer_pixel layers m x0 y0 x1 y1 hb col row hc0 hc1 hr0 hr1, probeLayers_eq_spec]
  · intro layers' hl
    rw [renderLayer_pixel layers' m x0 y0 x1 y1 hb col row hc0 hc1 hr0 hr1,
      probeLayers_congr layers layers' _ hl, probeLayers_eq_spec]

/-- Witness for C11: the initial layers, the ball's bounds `(60,76)-(68,84)` and
the pixel at the ball's centre, which is the ball's orange. -/
theorem render_first_match_witness :
    layerGetBounds init.ml0.layer = ⟨⟨60, 76⟩, ⟨68, 84⟩⟩ ∧
    ((60 : Int) ≤ 64 ∧ (64 : Int) ≤ 68 ∧ (76 : Int) ≤ 80 ∧ (80 : Int) ≤ 84) ∧
    specPixelColor init.layers ⟨64, 80⟩ = COLOR_ORANGE ∧
    (renderLayer init.layers init.ml0)[1 + (((80 : Int) - 76).toNat * ((68 : Int) - 60 + 1).toNat +
        ((64 : Int) - 60).toNat)]? =
      some (LcdOp.writeColor (specPixelColor init.layers ⟨64, 80⟩)) :=
  ⟨by decide, by decide, by decide,
    (render_first_match init.layers init.ml0 60 76 68 84 (by decide) 64 80
      (by decide) (by decide) (by decide) (by decide)).1⟩

/-- C14. For every moving layer of the chain with bounds `(x0,y0)-(x1,y1)`,
`x0 <= x1` and `y0 <= y1`, the render part of `movLayerDraw` declares the
window `(x0,y0,x1,y1)` once and then emits exactly `(x1-x0+1)*(y1-y0+1)`
colours in row-major order: the `k`-th colour is that of the pixel
`(x0 + k mod (x1-x0+1), y0 + k div (x1-x0+1))`; the layers before and after it
in the chain are rendered before and after. -/
theorem movLayerRender_row_major (layers : List Layer) (before : List MovLayer) (m : MovLayer)
    (next : List MovLayer) (x0 y0 x1 y1 : Int)
    (hb : layerGetBounds m.layer = ⟨⟨x0, y0⟩, ⟨x1, y1⟩⟩) (hx : x0 ≤ x1) (hy : y0 ≤ y1) :
    ∃ w h : Nat, (w : Int) = x1 - x0 + 1 ∧ (h : Int) = y1 - y0 + 1 ∧
      ((w * h : Nat) : Int) = (x1 - x0 + 1) * (y1 - y0 + 1) ∧
      movLayerRender (before ++ m :: next) layers =
        movLayerRender before layers ++
          (LcdOp.setArea x0 y0 x1 y1 ::
            (List.range (w * h)).map (fun k =>
              LcdOp.writeColor (probeLayers layers
                ⟨x0 + ((k % w : Nat) : Int), y0 + ((k / w : Nat) : Int)⟩))) ++
          movLayerRender next layers := by
  refine ⟨(x1 + 1 - x0).toNat, (y1 + 1 - y0).toNat, by omega, by omega, ?_, ?_⟩
  · rw [Nat.cast_mul]
    have e1 : (((x1 + 1 - x0).toNat : Nat) : Int) = x1 - x0 + 1 := by omega
    have e2 : (((y1 + 1 - y0).toNat : Nat) : Int) = y1 - y0 + 1 := by omega
    rw [e1, e2]
  · rw [movLayerRender_append]
    simp only [movLayerRender, List.append_assoc]
    rw [renderLayer_eq, hb]

/-- Witness for C14: the output of `movLayerDraw` on the initial globals starts
with the ball (bounds `(60,76)-(68,84)`, 81 pixels). -/
theorem movLayerRender_row_major_witness :
    layerGetBounds (movLayerDraw init).ml0.layer = ⟨⟨60, 76⟩, ⟨68, 84⟩⟩ ∧
    (60 : Int) ≤ 68 ∧ (76 : Int) ≤ 84 ∧
    ∃ w h : Nat, (w : Int) = 68 - 60 + 1 ∧ (h : Int) = 84 - 76 + 1 ∧
      ((w * h : Nat) : Int) = (68 - 60 + 1) * (84 - 76 + 1) ∧
      movLayerDrawOutput init =
        [] ++
          (LcdOp.setArea 60 76 68 84 ::
            (List.range (w * h)).map (fun k =>
              LcdOp.writeColor (probeLayers (movLayerDraw init).layers
                ⟨60 + ((k % w : Nat) : Int), 76 + ((k / w : Nat) : Int)⟩))) ++
          movLayerRender [(movLayerDraw init).ml1, (movLayerDraw init).ml2]
            (movLayerDraw init).layers :=
  ⟨by decide, by decide, by decide,
    movLayerRender_row_major (movLayerDraw init).layers [] (movLayerDraw init).ml0
      [(movLayerDraw init).ml1, (movLayerDraw init).ml2] 60 76 68 84
      (by decide) (by decide) (by decide)⟩

/-! ## The ball's vertical extent with no input (C12) -/

/-- The invariant puts the ball's box within the vertical extent of the fence. -/
theorem ballVertical_of_Inv (s : GameState) (h : Inv s) : ballVertical s := by
  obtain ⟨hf, ⟨hs, _, _, _, _, hy0, hy1⟩, _, _⟩ := h
  unfold ballVertical boxNext
  rw [hf, hs]
  refine ⟨rfl, ?_, ?_⟩ <;> simp only [] <;> omega

/-- C12. The initial game has `screenWidth` 128, `screenHeight` 160, the ball
(radius 4) with `posNext` at the field centre `(64,80)` and velocity `(2,1)`,
and the fence `(10,10)-(118,150)`.  After any number `N` of frames in which no
switch is pressed (fifteen interrupts, the last one the physics tick, and a
pass of the main loop), the ball's box at `posNext` is within the fence's
vertical extent: `fence.top <= posNext.y - 4` and `posNext.y + 4 <=
fence.bottom`; the same holds after any other run `es` of the program. -/
theorem ball_stays_in_vertical_extent (N : Nat) (es : List Event) :
    (screenWidth = 128 ∧ screenHeight = 160 ∧ init.ml0.layer.posNext = ⟨64, 80⟩ ∧
      init.ml0.velocity = ⟨2, 1⟩ ∧ init.fieldFence = ⟨⟨10, 10⟩, ⟨118, 150⟩⟩ ∧
      init.ml0.layer.abShape = circle4) ∧
    (∀ e ∈ (List.replicate N (frame 15)).flatten, e.quiet) ∧
    ballVertical (run init (List.replicate N (frame 15)).flatten) ∧
    ballVertical (run init es) := by
  refine ⟨⟨rfl, rfl, by decide, rfl, by decide, rfl⟩, ?_,
    ballVertical_of_Inv _ (run_Inv _ init Inv_init),
    ballVertical_of_Inv _ (run_Inv _ init Inv_init)⟩
  intro e he
  rw [List.mem_flatten] at he
  obtain ⟨l, hl, hel⟩ := he
  rw [List.eq_of_mem_replicate hl] at hel
  revert e
  decide

/-! ## The handler writes only `posNext` (C13) -/

theorem collCheck_layer (ball : MovLayer) (p1 p2 : Region) :
    (collCheck ball p1 p2).layer = ball.layer := by
  rw [collCheck_def]
  split <;> rfl

/-- The switch stage writes neither `pos` nor `posLast`. -/
theorem readSwitches_committed (s : GameState) (switches : Nat) :
    (readSwitches s switches).ml0 = s.ml0 ∧
    ((readSwitches s switches).ml1.layer.pos = s.ml1.layer.pos ∧
      (readSwitches s switches).ml1.layer.posLast = s.ml1.layer.posLast) ∧
    ((readSwitches s switches).ml2.layer.pos = s.ml2.layer.pos ∧
      (readSwitches s switches).ml2.layer.posLast = s.ml2.layer.posLast) ∧
    (readSwitches s switches).fieldLayer = s.fieldLayer := by
  unfold readSwitches
  refine ⟨?_, ⟨?_, ?_⟩, ⟨?_, ?_⟩, ?_⟩ <;> (split <;> split <;> split <;> split <;> rfl)

/-- C13. None of `collCheck`, `mlAdvance`, `resetBall`, `movPaddleLeft`,
`movPaddleRight` writes `pos` or `posLast` (`scoreCheck` writes no layer at
all), and for every state and switch input the `pos` and `posLast` of every
layer after `wdt_c_handler` equal their values before it. -/
theorem handler_keeps_committed (s : GameState) (switches : Nat) (p1 p2 fence : Region) :
    (keepsCommitted (fun m => collCheck m p1 p2) ∧
      keepsCommitted (fun m => mlAdvanceBody m fence) ∧
      keepsCommitted resetBall ∧ keepsCommitted movPaddleLeft ∧
      keepsCommitted movPaddleRight ∧ (scoreCheckCall s).chain = s.chain ∧
      (scoreCheckCall s).fieldLayer = s.fieldLayer) ∧
    ((wdt_c_handler s switches).ml0.layer.pos = s.ml0.layer.pos ∧
      (wdt_c_handler s switches).ml0.layer.posLast = s.ml0.layer.posLast) ∧
    ((wdt_c_handler s switches).ml1.layer.pos = s.ml1.layer.pos ∧
      (wdt_c_handler s switches).ml1.layer.posLast = s.ml1.layer.posLast) ∧
    ((wdt_c_handler s switches).ml2.layer.pos = s.ml2.layer.pos ∧
      (wdt_c_handler s switches).ml2.layer.posLast = s.ml2.layer.posLast) ∧
    (wdt_c_handler s switches).fieldLayer = s.fieldLayer := by
  refine ⟨⟨?_, fun m => ⟨rfl, rfl⟩, fun m => ⟨rfl, rfl⟩, fun m => ⟨rfl, rfl⟩,
    fun m => ⟨rfl, rfl⟩, rfl, rfl⟩, ?_⟩
  · intro m
    exact ⟨congrArg Layer.pos (collCheck_layer m p1 p2),
      congrArg Layer.posLast (collCheck_layer m p1 p2)⟩
  by_cases hc : s.count = 14
  · by_cases hd : s.delay = 1
    · rw [wdt_c_handler_pause s switches hc hd]
      obtain ⟨h0, h1, h2, hf⟩ := readSwitches_committed (resetBallCall s) switches
      refine ⟨?_, h1, h2, hf⟩
      show (readSwitches (resetBallCall s) switches).ml0.layer.pos = _ ∧
        (readSwitches (resetBallCall s) switches).ml0.layer.posLast = _
      rw [h0]
      exact ⟨rfl, rfl⟩
    · rw [wdt_c_handler_play s switches hc hd]
      obtain ⟨h0, h1, h2, hf⟩ :=
        readSwitches_committed (scoreCheckCall (mlAdvanceCall (collCheckCall s))) switches
      refine ⟨?_, h1, h2, hf⟩
      show (readSwitches (scoreCheckCall (mlAdvanceCall (collCheckCall s))) switches).ml0.layer.pos
          = _ ∧
        (readSwitches (scoreCheckCall (mlAdvanceCall (collCheckCall s))) switches).ml0.layer.posLast
          = _
      rw [h0]
      have hl : (collCheck s.ml0 s.p1 s.p2).layer = s.ml0.layer := collCheck_layer _ _ _
      have hp : (scoreCheckCall (mlAdvanceCall (collCheckCall s))).ml0.layer.pos =
          (collCheck s.ml0 s.p1 s.p2).layer.pos := rfl
      have hq : (scoreCheckCall (mlAdvanceCall (collCheckCall s))).ml0.layer.posLast =
          (collCheck s.ml0 s.p1 s.p2).layer.posLast := rfl
      rw [hp, hq, hl]
      exact ⟨rfl, rfl⟩
  · have h15 : ¬ (s.count + 1 = 15) := by omega
    have e : wdt_c_handler s switches = { s with count := s.count + 1 } := by
      simp only [wdt_c_handler, h15, if_false]
    rw [e]
    exact ⟨⟨rfl, rfl⟩, ⟨rfl, rfl⟩, ⟨rfl, rfl⟩, rfl⟩

/-! ## Position correction of `mlAdvance` (C15, C16) -/

/-- C15. For every moving layer of the chain and every fence, `mlAdvance` sets
`posNext` on each axis independently: on an axis where the uncorrected
candidate box (bounds at old `posNext` + old velocity) crosses the fence, to
the candidate plus twice the reflected velocity, which is old `posNext` minus
the old velocity; on an axis where it does not cross, to old `posNext` plus the
velocity.  Both tests are made on the same uncorrected candidate box. -/
theorem mlAdvance_posNext (mls : List MovLayer) (fence : Region) :
    List.Forall₂ (fun ml ml' =>
      ml'.layer.posNext.axes 0 =
        (if crosses ml fence 0 then ml.layer.posNext.axes 0 - ml.velocity.axes 0
          else ml.layer.posNext.axes 0 + ml.velocity.axes 0) ∧
      ml'.layer.posNext.axes 1 =
        (if crosses ml fence 1 then ml.layer.posNext.axes 1 - ml.velocity.axes 1
          else ml.layer.posNext.axes 1 + ml.velocity.axes 1) ∧
      ml'.layer.posNext.axes 0 =
        (vec2Add ml.layer.posNext ml.velocity).axes 0 +
          (if crosses ml fence 0 then 2 * ml'.velocity.axes 0 else 0) ∧
      ml'.layer.posNext.axes 1 =
        (vec2Add ml.layer.posNext ml.velocity).axes 1 +
          (if crosses ml fence 1 then 2 * ml'.velocity.axes 1 else 0))
      mls (mlAdvance mls fence) := by
  induction mls with
  | nil => exact List.Forall₂.nil
  | cons ml next ih =>
    refine List.Forall₂.cons ?_ ih
    rw [mlAdvanceBody_eq]
    refine ⟨rfl, rfl, ?_, ?_⟩ <;>
      simp only [Vec2.axes_zero, Vec2.axes_one, vec2Add] <;> split <;> omega

/-- `mlAdvance` goes through the chain node by node. -/
theorem mlAdvance_append (before after : List MovLayer) (fence : Region) :
    mlAdvance (before ++ after) fence = mlAdvance before fence ++ mlAdvance after fence := by
  induction before with
  | nil => rfl
  | cons m before ih =>
    show mlAdvanceBody m fence :: mlAdvance (before ++ after) fence = _
    rw [ih]
    rfl

/-- C16. For every moving layer of the chain whose shape's bounds are
centre ± `(h.x, h.y)`, every fence and each axis: if the box at `posNext` lies
within the fence on that axis and `2 * |velocity| <= (fence.botRight -
fence.topLeft) - 2 * h` on that axis, then after `mlAdvance` the box at the new
`posNext` again lies within the fence on that axis. -/
theorem mlAdvance_keeps_inside (before : List MovLayer) (ml : MovLayer) (next : List MovLayer)
    (fence : Region) (h : Vec2) (axis : Nat) (haxis : axis < 2)
    (hshape : ∀ c : Vec2, abShapeGetBounds ml.layer.abShape c =
      ⟨⟨c.x - h.x, c.y - h.y⟩, ⟨c.x + h.x, c.y + h.y⟩⟩)
    (hin : insideAxis (boxNext ml) fence axis)
    (hroom : 2 * |ml.velocity.axes axis| ≤
      (fence.botRight.axes axis - fence.topLeft.axes axis) - 2 * h.axes axis) :
    mlAdvance (before ++ ml :: next) fence =
      mlAdvance before fence ++ mlAdvanceBody ml fence :: mlAdvance next fence ∧
    insideAxis (boxNext (mlAdvanceBody ml fence)) fence axis := by
  refine ⟨by rw [mlAdvance_append]; rfl, ?_⟩
  have hshape' : ∀ c : Vec2, abShapeGetBounds (mlAdvanceBody ml fence).layer.abShape c =
      ⟨⟨c.x - h.x, c.y - h.y⟩, ⟨c.x + h.x, c.y + h.y⟩⟩ := hshape
  have habs1 := le_abs_self (ml.velocity.axes axis)
  have habs2 := neg_abs_le (ml.velocity.axes axis)
  unfold insideAxis boxNext at hin ⊢
  rw [hshape] at hin
  rw [hshape', mlAdvanceBody_eq]
  have hax : axis = 0 ∨ axis = 1 := by omega
  rcases hax with rfl | rfl
  · simp only [Vec2.axes_zero] at hin hroom habs1 habs2 ⊢
    by_cases hc : crosses ml fence 0
    · rw [if_pos hc]
      unfold crosses candidateBox at hc
      rw [hshape] at hc
      simp only [Vec2.axes_zero, vec2Add] at hc
      omega
    · rw [if_neg hc]
      unfold crosses candidateBox at hc
      rw [hshape] at hc
      simp only [Vec2.axes_zero, vec2Add] at hc
      omega
  · simp only [Vec2.axes_one] at hin hroom habs1 habs2 ⊢
    by_cases hc : crosses ml fence 1
    · rw [if_pos hc]
      unfold crosses candidateBox at hc
      rw [hshape] at hc
      simp only [Vec2.axes_one, vec2Add] at hc
      omega
    · rw [if_neg hc]
      unfold crosses candidateBox at hc
      rw [hshape] at hc
      simp only [Vec2.axes_one, vec2Add] at hc
      omega

/-- Witness for C16: the ball at the right fence edge moving right, as head of
a chain with a paddle behind it; horizontal axis. -/
theorem mlAdvance_keeps_inside_witness :
    (0 < 2 ∧
      insideAxis (boxNext (ballAt ⟨114, 80⟩ ⟨2, 1⟩)) ⟨⟨10, 10⟩, ⟨118, 150⟩⟩ 0 ∧
      2 * |(ballAt ⟨114, 80⟩ ⟨2, 1⟩).velocity.axes 0| ≤
        ((⟨⟨10, 10⟩, ⟨118, 150⟩⟩ : Region).botRight.axes 0 -
          (⟨⟨10, 10⟩, ⟨118, 150⟩⟩ : Region).topLeft.axes 0) - 2 * (⟨4, 4⟩ : Vec2).axes 0) ∧
    (mlAdvance ([] ++ ballAt ⟨114, 80⟩ ⟨2, 1⟩ :: [init.ml1]) ⟨⟨10, 10⟩, ⟨118, 150⟩⟩ =
        mlAdvance [] ⟨⟨10, 10⟩, ⟨118, 150⟩⟩ ++
          mlAdvanceBody (ballAt ⟨114, 80⟩ ⟨2, 1⟩) ⟨⟨10, 10⟩, ⟨118, 150⟩⟩ ::
            mlAdvance [init.ml1] ⟨⟨10, 10⟩, ⟨118, 150⟩⟩ ∧
      insideAxis (boxNext (mlAdvanceBody (ballAt ⟨114, 80⟩ ⟨2, 1⟩) ⟨⟨10, 10⟩, ⟨118, 150⟩⟩))
        ⟨⟨10, 10⟩, ⟨118, 150⟩⟩ 0) :=
  ⟨⟨by decide, by decide, by decide⟩,
    mlAdvance_keeps_inside [] (ballAt ⟨114, 80⟩ ⟨2, 1⟩) [init.ml1] ⟨⟨10, 10⟩, ⟨118, 150⟩⟩
      ⟨4, 4⟩ 0 (by decide) (fun _ => rfl) (by decide) (by decide)⟩

/-! ## Paddle steps (C17) -/

/-- C17, as stated, fails: for a paddle at `posNext = (64,144)` with velocity
`(1,1)`, `movPaddleRight` gives `posNext = (68,145)`, not `(64 + (2+1), 144)`,
and `movPaddleLeft` gives `(62,145)`, not `(64 - (2+1), 144)`: the velocity is
added to the position before the step is applied. -/
theorem movPaddle_velocity_counted_twice :
    (movPaddleRight (paddleAt ⟨64, 144⟩ ⟨1, 1⟩)).layer.posNext = ⟨68, 145⟩ ∧
    (movPaddleRight (paddleAt ⟨64, 144⟩ ⟨1, 1⟩)).layer.posNext ≠ ⟨64 + (2 + 1), 144⟩ ∧
    (movPaddleLeft (paddleAt ⟨64, 144⟩ ⟨1, 1⟩)).layer.posNext = ⟨62, 145⟩ ∧
    (movPaddleLeft (paddleAt ⟨64, 144⟩ ⟨1, 1⟩)).layer.posNext ≠ ⟨64 - (2 + 1), 144⟩ := by
  decide

/-- C17, amended. For every paddle state with velocity `(vx, vy)`,
`movPaddleRight` adds `vx + (2 + vx)` to `posNext.x` and `movPaddleLeft` adds
`vx - (2 + vx)`, that is subtracts exactly 2; both add `vy` to `posNext.y` and
leave the velocity, `pos`, `posLast`, shape and colour unchanged. -/
theorem movPaddle_steps (ml : MovLayer) :
    (movPaddleRight ml).layer.posNext =
      ⟨ml.layer.posNext.x + ml.velocity.x + (2 + ml.velocity.x),
       ml.layer.posNext.y + ml.velocity.y⟩ ∧
    (movPaddleLeft ml).layer.posNext =
      ⟨ml.layer.posNext.x - 2, ml.layer.posNext.y + ml.velocity.y⟩ ∧
    (movPaddleRight ml).velocity = ml.velocity ∧ (movPaddleLeft ml).velocity = ml.velocity ∧
    (movPaddleRight ml).layer.pos = ml.layer.pos ∧ (movPaddleLeft ml).layer.pos = ml.layer.pos ∧
    (movPaddleRight ml).layer.posLast = ml.layer.posLast ∧
    (movPaddleLeft ml).layer.posLast = ml.layer.posLast ∧
    (movPaddleRight ml).layer.abShape = ml.layer.abShape ∧
    (movPaddleLeft ml).layer.abShape = ml.layer.abShape ∧
    (movPaddleRight ml).layer.color = ml.layer.color ∧
    (movPaddleLeft ml).layer.color = ml.layer.color := by
  refine ⟨rfl, ?_, rfl, rfl, rfl, rfl, rfl, rfl, rfl, rfl, rfl, rfl⟩
  simp only [movPaddleLeft, vec2Add, Vec2.setAxis_zero, Vec2.axes_zero, Vec2.mk.injEq, and_true]
  omega

/-! ## Paddle bounce before wall bounce (C18) -/

/-- After `mlAdvance` in the real fence a ball that was inside is never on a
fence edge while moving away from it. -/
theorem mlAdvanceBody_ballClear (m : MovLayer) (h : ballOK m) :
    ballClear (mlAdvanceBody m ⟨⟨10, 10⟩, ⟨118, 150⟩⟩) := by
  obtain ⟨hs, hx, hy, hx0, hx1, hy0, hy1⟩ := h
  rw [mlAdvanceBody_eq]
  have c1 : crosses m ⟨⟨10, 10⟩, ⟨118, 150⟩⟩ 1 ↔
      (m.layer.posNext.y + m.velocity.y - 4 < 10 ∨ m.layer.posNext.y + m.velocity.y + 4 > 150) := by
    unfold crosses candidateBox
    rw [hs]
    exact Iff.rfl
  unfold ballClear
  simp only []
  by_cases hc : crosses m ⟨⟨10, 10⟩, ⟨118, 150⟩⟩ 1
  · have hc1 := c1.mp hc
    simp only [hc, if_true]
    omega
  · have hc1 := (not_congr c1).mp hc
    simp only [hc, if_false]
    omega

theorem resetBall_ballClear (m : MovLayer) : ballClear (resetBall m) := by
  have h80 : (resetBall m).layer.posNext.y = 80 :=
    (by decide : screenHeight / 2 = (80 : Int))
  unfold ballClear
  rw [h80]
  omega

/-- The handler keeps the ball clear of the fence edges it moves away from. -/
theorem wdt_c_handler_ballClear (s : GameState) (switches : Nat) (h : Inv s)
    (hcl : ballClear s.ml0) : ballClear (wdt_c_handler s switches).ml0 := by
  by_cases hc : s.count = 14
  · by_cases hd : s.delay = 1
    · rw [wdt_c_handler_pause s switches hc hd]
      show ballClear (readSwitches (resetBallCall s) switches).ml0
      rw [(readSwitches_ml0 _ switches).1]
      exact resetBall_ballClear s.ml0
    · rw [wdt_c_handler_play s switches hc hd]
      show ballClear (readSwitches (scoreCheckCall (mlAdvanceCall (collCheckCall s)))
        switches).ml0
      rw [(readSwitches_ml0 _ switches).1]
      have e0 : (scoreCheckCall (mlAdvanceCall (collCheckCall s))).ml0 =
          mlAdvanceBody (collCheck s.ml0 s.p1 s.p2) ⟨⟨10, 10⟩, ⟨118, 150⟩⟩ := by
        rw [← h.1]; rfl
      rw [e0]
      exact mlAdvanceBody_ballClear _ (collCheck_ballOK _ _ _ h.2.1)
  · have h15 : ¬ (s.count + 1 = 15) := by omega
    have e : wdt_c_handler s switches = { s with count := s.count + 1 } := by
      simp only [wdt_c_handler, h15, if_false]
    rw [e]
    exact hcl

theorem run_ballClear (es : List Event) (s : GameState) (h : Inv s) (hcl : ballClear s.ml0) :
    ballClear (run s es).ml0 := by
  induction es generalizing s with
  | nil => exact hcl
  | cons e es ih =>
    refine ih (step s e) (step_Inv s e h) ?_
    cases e with
    | tick switches => exact wdt_c_handler_ballClear s switches h hcl
    | clearRedraw => exact hcl
    | draw => exact hcl
    | boundsP1 => exact hcl
    | boundsP2 => exact hcl

theorem ballClear_init : ballClear init.ml0 := by
  unfold ballClear
  decide

/-- In every state reachable from the initial configuration the ball's box
moved on by the reversed velocity lies within the fence on the vertical axis. -/
theorem reachable_reversedBox_inside (s : GameState) (hr : Reachable s) :
    insideAxis (reversedBox s.ml0) s.fieldFence 1 := by
  obtain ⟨es, rfl⟩ := hr
  have hinv := run_Inv es init Inv_init
  have hcl := run_ballClear es init Inv_init ballClear_init
  generalize run init es = s at *
  obtain ⟨hf, ⟨hs, hvx, hvy, hx0, hx1, hy0, hy1⟩, -, -⟩ := hinv
  unfold insideAxis reversedBox
  rw [hf, hs]
  simp only [abShapeGetBounds, circle4, abCircleGetBounds, vec2Add, Vec2.axes_one]
  unfold ballClear at hcl
  omega

/-- On a count other than the fifteenth the handler only counts. -/
theorem wdt_c_handler_idle (s : GameState) (switches : Nat) (h : s.count + 1 ≠ 15) :
    wdt_c_handler s switches = { s with count := s.count + 1 } := by
  simp only [wdt_c_handler, h, if_false]

/-- On the fifteenth count the handler runs the physics step. -/
theorem wdt_c_handler_physics (s : GameState) (switches : Nat) (h : s.count = 14) :
    wdt_c_handler s switches = physicsStep { s with count := 15 } switches := by
  have h15 : s.count + 1 = 15 := by omega
  simp only [wdt_c_handler, h15, if_true, physicsStep]

/-- The counter after a series of invocations, started below 15. -/
theorem handler_count (sws : List Nat) :
    ∀ (s : GameState) (k : Nat), s.count = k → k < 15 →
      (sws.foldl wdt_c_handler s).count = (((k + sws.length) % 15 : Nat) : Int) := by
  induction sws with
  | nil =>
    intro s k hk hlt
    simp only [List.foldl_nil, List.length_nil, Nat.add_zero, Nat.mod_eq_of_lt hlt, hk]
  | cons sw rest ih =>
    intro s k hk hlt
    rw [List.foldl_cons, List.length_cons]
    by_cases h14 : k = 14
    · have hc : s.count = 14 := by rw [hk, h14]; rfl
      have h0 : (wdt_c_handler s sw).count = ((0 : Nat) : Int) := by
        rw [wdt_c_handler_physics s sw hc]; rfl
      rw [ih _ 0 h0 (by omega)]
      congr 1
      omega
    · have hi : (wdt_c_handler s sw).count = ((k + 1 : Nat) : Int) := by
        rw [wdt_c_handler_idle s sw (by omega), hk]
        simp only [Nat.cast_add, Nat.cast_one]
      rw [ih _ (k + 1) hi (by omega)]
      congr 1
      omega

/-- C19. Starting with the handler's counter at 0, after any series `sws` of
invocations the counter is the number of invocations modulo 15, and the next
invocation runs the physics or reset step, the switch sampling and sets
`redrawScreen` (`physicsStep`, after which the counter is 0 in both branches)
exactly when it is a fifteenth one; otherwise it changes nothing but the
counter: no layer position, velocity, score, pause flag or `redrawScreen`. -/
theorem handler_every_fifteenth (s : GameState) (h0 : s.count = 0) (sws : List Nat)
    (switches : Nat) :
    (sws.foldl wdt_c_handler s).count = ((sws.length % 15 : Nat) : Int) ∧
    wdt_c_handler (sws.foldl wdt_c_handler s) switches =
      (if (sws.length + 1) % 15 = 0 then
        physicsStep { sws.foldl wdt_c_handler s with count := 15 } switches
      else
        { sws.foldl wdt_c_handler s with count := (sws.foldl wdt_c_handler s).count + 1 }) ∧
    (physicsStep { sws.foldl wdt_c_handler s with count := 15 } switches).count = 0 ∧
    (physicsStep { sws.foldl wdt_c_handler s with count := 15 } switches).redrawScreen = 1 ∧
    physicsStep { sws.foldl wdt_c_handler s with count := 15 } switches =
      { readSwitches
          (if (sws.foldl wdt_c_handler s).delay = 1 then
            pauseStep { sws.foldl wdt_c_handler s with count := 15 }
          else playStep { sws.foldl wdt_c_handler s with count := 15 }) switches with
        redrawScreen := 1, count := 0 } := by
  have hcnt := handler_count sws s 0 (by rw [h0]; rfl) (by omega)
  rw [Nat.zero_add] at hcnt
  refine ⟨hcnt, ?_, rfl, rfl, rfl⟩
  by_cases h : (sws.length + 1) % 15 = 0
  · rw [if_pos h]
    exact wdt_c_handler_physics _ switches (by rw [hcnt]; omega)
  · rw [if_neg h]
    exact wdt_c_handler_idle _ switches (by rw [hcnt]; omega)

/-- Witness for C19: from the initial globals, the invocation after fourteen
others is the first physics step. -/
theorem handler_every_fifteenth_witness :
    init.count = 0 ∧
    ((List.replicate 14 15).foldl wdt_c_handler init).count = ((14 % 15 : Nat) : Int) ∧
    wdt_c_handler ((List.replicate 14 15).foldl wdt_c_handler init) 15 =
      (if ((List.replicate 14 15).length + 1) % 15 = 0 then
        physicsStep { (List.replicate 14 15).foldl wdt_c_handler init with count := 15 } 15
      else
        { (List.replicate 14 15).foldl wdt_c_handler init with
          count := ((List.replicate 14 15).foldl wdt_c_handler init).count + 1 }) :=
  have h := handler_every_fifteenth init rfl (List.replicate 14 15) 15
  ⟨rfl, h.1, h.2.1⟩

/-! ## Paddles only move horizontally (C20) -/

/-- What the switch stage can do to each paddle: nothing, a left step, a right
step, or a left step followed by a right step. -/
theorem readSwitches_paddles (s : GameState) (switches : Nat) :
    ((readSwitches s switches).ml1 = s.ml1 ∨
      (readSwitches s switches).ml1 = movPaddleLeft s.ml1 ∨
      (readSwitches s switches).ml1 = movPaddleRight s.ml1 ∨
      (readSwitches s switches).ml1 = movPaddleRight (movPaddleLeft s.ml1)) ∧
    ((readSwitches s switches).ml2 = s.ml2 ∨
      (readSwitches s switches).ml2 = movPaddleLeft s.ml2 ∨
      (readSwitches s switches).ml2 = movPaddleRight s.ml2 ∨
      (readSwitches s switches).ml2 = movPaddleRight (movPaddleLeft s.ml2)) := by
  unfold readSwitches
  refine ⟨?_, ?_⟩ <;> (split <;> split <;> split <;> split <;>
    first
    | exact Or.inl rfl
    | exact Or.inr (Or.inl rfl)
    | exact Or.inr (Or.inr (Or.inl rfl))
    | exact Or.inr (Or.inr (Or.inr rfl)))

/-- A paddle at rest moves by 0 or by 2 to either side under the switch
options, and stays on its row. -/
theorem paddle_options_step (m m' : MovLayer) (hv : m.velocity = ⟨0, 0⟩)
    (h : m' = m ∨ m' = movPaddleLeft m ∨ m' = movPaddleRight m ∨
      m' = movPaddleRight (movPaddleLeft m)) :
    m'.layer.posNext.y = m.layer.posNext.y ∧
    (m'.layer.posNext.x - m.layer.posNext.x = -2 ∨
      m'.layer.posNext.x - m.layer.posNext.x = 0 ∨
      m'.layer.posNext.x - m.layer.posNext.x = 2) := by
  rcases h with rfl | rfl | rfl | rfl <;>
    simp [movPaddleLeft, movPaddleRight, vec2Add, hv]

/-- The paddles through one invocation of the handler, when they are at rest. -/
theorem wdt_c_handler_paddles (s : GameState) (switches : Nat)
    (hv1 : s.ml1.velocity = ⟨0, 0⟩) (hv2 : s.ml2.velocity = ⟨0, 0⟩) :
    ((wdt_c_handler s switches).ml1 = s.ml1 ∨
      (wdt_c_handler s switches).ml1 = movPaddleLeft s.ml1 ∨
      (wdt_c_handler s switches).ml1 = movPaddleRight s.ml1 ∨
      (wdt_c_handler s switches).ml1 = movPaddleRight (movPaddleLeft s.ml1)) ∧
    ((wdt_c_handler s switches).ml2 = s.ml2 ∨
      (wdt_c_handler s switches).ml2 = movPaddleLeft s.ml2 ∨
      (wdt_c_handler s switches).ml2 = movPaddleRight s.ml2 ∨
      (wdt_c_handler s switches).ml2 = movPaddleRight (movPaddleLeft s.ml2)) := by
  by_cases hc : s.count = 14
  · by_cases hd : s.delay = 1
    · rw [wdt_c_handler_pause s switches hc hd]
      exact readSwitches_paddles (resetBallCall s) switches
    · rw [wdt_c_handler_play s switches hc hd]
      have m1 : (scoreCheckCall (mlAdvanceCall (collCheckCall s))).ml1 = s.ml1 :=
        mlAdvanceBody_still s.ml1 s.fieldFence hv1
      have m2 : (scoreCheckCall (mlAdvanceCall (collCheckCall s))).ml2 = s.ml2 :=
        mlAdvanceBody_still s.ml2 s.fieldFence hv2
      have h := readSwitches_paddles (scoreCheckCall (mlAdvanceCall (collCheckCall s))) switches
      rw [m1, m2] at h
      exact h
  · rw [wdt_c_handler_idle s switches (by omega)]
    exact ⟨Or.inl rfl, Or.inl rfl⟩

/-- C20. In every state reachable from the initial configuration both paddles'
velocities are `(0,0)` and each paddle's `posNext.y` is its initial value (144
and 15); whatever happens next leaves `posNext.y` as it is and moves
`posNext.x` by 0 or by exactly 2 to either side, a single `movPaddleLeft` or
`movPaddleRight` being a step of exactly 2. -/
theorem paddles_move_horizontally (s : GameState) (h : Reachable s) (e : Event) :
    (s.ml1.velocity = ⟨0, 0⟩ ∧ s.ml2.velocity = ⟨0, 0⟩) ∧
    (s.ml1.layer.posNext.y = init.ml1.layer.posNext.y ∧ init.ml1.layer.posNext.y = 144 ∧
      s.ml2.layer.posNext.y = init.ml2.layer.posNext.y ∧ init.ml2.layer.posNext.y = 15) ∧
    ((step s e).ml1.layer.posNext.y = s.ml1.layer.posNext.y ∧
      ((step s e).ml1.layer.posNext.x - s.ml1.layer.posNext.x = -2 ∨
        (step s e).ml1.layer.posNext.x - s.ml1.layer.posNext.x = 0 ∨
        (step s e).ml1.layer.posNext.x - s.ml1.layer.posNext.x = 2)) ∧
    ((step s e).ml2.layer.posNext.y = s.ml2.layer.posNext.y ∧
      ((step s e).ml2.layer.posNext.x - s.ml2.layer.posNext.x = -2 ∨
        (step s e).ml2.layer.posNext.x - s.ml2.layer.posNext.x = 0 ∨
        (step s e).ml2.layer.posNext.x - s.ml2.layer.posNext.x = 2)) ∧
    ((movPaddleLeft s.ml1).layer.posNext = ⟨s.ml1.layer.posNext.x - 2, s.ml1.layer.posNext.y⟩ ∧
      (movPaddleRight s.ml1).layer.posNext = ⟨s.ml1.layer.posNext.x + 2, s.ml1.layer.posNext.y⟩ ∧
      (movPaddleLeft s.ml2).layer.posNext = ⟨s.ml2.layer.posNext.x - 2, s.ml2.layer.posNext.y⟩ ∧
      (movPaddleRight s.ml2).layer.posNext =
        ⟨s.ml2.layer.posNext.x + 2, s.ml2.layer.posNext.y⟩) := by
  obtain ⟨es, rfl⟩ := h
  obtain ⟨-, -, ⟨hv1, -, hy1⟩, ⟨hv2, -, hy2⟩⟩ := run_Inv es init Inv_init
  generalize run init es = s at *
  have hstill : ∀ t : GameState, t.ml1.layer.posNext = s.ml1.layer.posNext →
      t.ml2.layer.posNext = s.ml2.layer.posNext →
      (t.ml1.layer.posNext.y = s.ml1.layer.posNext.y ∧
        (t.ml1.layer.posNext.x - s.ml1.layer.posNext.x = -2 ∨
          t.ml1.layer.posNext.x - s.ml1.layer.posNext.x = 0 ∨
          t.ml1.layer.posNext.x - s.ml1.layer.posNext.x = 2)) ∧
      (t.ml2.layer.posNext.y = s.ml2.layer.posNext.y ∧
        (t.ml2.layer.posNext.x - s.ml2.layer.posNext.x = -2 ∨
          t.ml2.layer.posNext.x - s.ml2.layer.posNext.x = 0 ∨
          t.ml2.layer.posNext.x - s.ml2.layer.posNext.x = 2)) := by
    intro t h1 h2
    rw [h1, h2]
    exact ⟨⟨rfl, Or.inr (Or.inl (sub_self _))⟩, ⟨rfl, Or.inr (Or.inl (sub_self _))⟩⟩
  have hstep : ((step s e).ml1.layer.posNext.y = s.ml1.layer.posNext.y ∧
        ((step s e).ml1.layer.posNext.x - s.ml1.layer.posNext.x = -2 ∨
          (step s e).ml1.layer.posNext.x - s.ml1.layer.posNext.x = 0 ∨
          (step s e).ml1.layer.posNext.x - s.ml1.layer.posNext.x = 2)) ∧
      ((step s e).ml2.layer.posNext.y = s.ml2.layer.posNext.y ∧
        ((step s e).ml2.layer.posNext.x - s.ml2.layer.posNext.x = -2 ∨
          (step s e).ml2.layer.posNext.x - s.ml2.layer.posNext.x = 0 ∨
          (step s e).ml2.layer.posNext.x - s.ml2.layer.posNext.x = 2)) := by
    cases e with
    | tick switches =>
      have hopts := wdt_c_handler_paddles s switches hv1 hv2
      exact ⟨paddle_options_step _ _ hv1 hopts.1, paddle_options_step _ _ hv2 hopts.2⟩
    | clearRedraw => exact hstill _ rfl rfl
    | draw => exact hstill _ rfl rfl
    | boundsP1 => exact hstill _ rfl rfl
    | boundsP2 => exact hstill _ rfl rfl
  refine ⟨⟨hv1, hv2⟩, ⟨hy1, by decide, hy2, by decide⟩, hstep.1, hstep.2, ?_⟩
  refine ⟨?_, ?_, ?_, ?_⟩ <;> simp [movPaddleLeft, movPaddleRight, vec2Add, hv1, hv2]

/-- Witness for C20: the state after one frame with switch 0 pressed, followed
by an interrupt. -/
theorem paddles_move_horizontally_witness :
    Reachable (run init (frame 14)) ∧
    (run init (frame 14)).ml1.velocity = ⟨0, 0⟩ ∧
    (run init (frame 14)).ml1.layer.posNext.y = init.ml1.layer.posNext.y :=
  have h := paddles_move_horizontally (run init (frame 14)) ⟨frame 14, rfl⟩ (.tick 14)
  ⟨⟨frame 14, rfl⟩, h.1.1, h.2.1.1⟩

end Game
